import Mathlib

/-!
# pro-digital-signature: `script.js`

A shallow embedding of the browser script: the drawing state machine, the
signature surface and its emptiness test, overlay placement and dragging, and
the export coordinator.  Global variables of the script are the fields of
`Session`; every handler is a function on sessions.  Numbers that the script
handles as lengths and coordinates are exact: CSS pixels are integers and the
device pixel ratio is a fraction `dprNum / dprDen`, compared by
cross-multiplication.
-/

namespace ProDigitalSignature

/-! ## Strings -/

/-- Models `s.startsWith(p)`. -/
def startsWith (s p : String) : Bool := p.toList.isPrefixOf s.toList

/-- Models `s.endsWith(p)`. -/
def endsWith (s p : String) : Bool := p.toList.isSuffixOf s.toList

/-- Substring search on character lists: some suffix of the text starts with `p`. -/
def includesFrom : List Char → List Char → Bool
  | [], p => p.isEmpty
  | c :: cs, p => p.isPrefixOf (c :: cs) || includesFrom cs p

/-- Models `s.includes(p)`. -/
def includes (s p : String) : Bool := includesFrom s.toList p.toList

/-- Models `s.toLowerCase()`, on the ASCII letters. -/
def toLowerCase (s : String) : String := String.mk (s.toList.map Char.toLower)

/-- Does the regular expression `\.[^/.]+$` match starting exactly here: a dot
followed, up to the end of the text, by one or more characters that are
neither a slash nor a dot. -/
def extensionMatchesAt : List Char → Bool
  | [] => false
  | c :: rest => c == '.' && !rest.isEmpty && rest.all (fun d => d != '/' && d != '.')

/-- The text with the leftmost match of `\.[^/.]+$` removed, on character lists. -/
def stripExtensionChars : List Char → List Char
  | [] => []
  | c :: cs => if extensionMatchesAt (c :: cs) then [] else c :: stripExtensionChars cs

/-- Models `name.replace(/\.[^/.]+$/, '')`. -/
def stripExtension (name : String) : String := String.mk (stripExtensionChars name.toList)

/-! ## The bitmap of a canvas -/

/-- One RGBA pixel of a canvas bitmap. -/
structure Pixel where
  r : Nat
  g : Nat
  b : Nat
  a : Nat
deriving DecidableEq, Repr

/-- Transparent black, the value of every pixel of a new or reset canvas. -/
def Pixel.blank : Pixel := ⟨0, 0, 0, 0⟩

/-- A canvas element: its bitmap dimensions and the pixel at column `x`, row `y`. -/
structure Canvas where
  width : Nat
  height : Nat
  pixels : Nat → Nat → Pixel

/-- A canvas as `document.createElement('canvas')` with `width` and `height` set:
every pixel transparent black. -/
def Canvas.blank (w h : Nat) : Canvas := ⟨w, h, fun _ _ => Pixel.blank⟩

/-- The value of `canvas.toDataURL(type)`: the media type, the dimensions and the
pixels row by row (the encoding is lossless for PNG, so the encoded text
determines and is determined by these). -/
structure DataURL where
  mime : String
  width : Nat
  height : Nat
  rows : List (List Pixel)
deriving DecidableEq

/-- Models `canvas.toDataURL(mime)`. -/
def Canvas.toDataURL (c : Canvas) (mime : String) : DataURL :=
  ⟨mime, c.width, c.height,
    (List.range c.height).map (fun y => (List.range c.width).map (fun x => c.pixels x y))⟩

/-- The 2D context state the script uses: the scale of the current transform
as a fraction, the stroke configuration, and the current path (a list of
subpaths, each a list of points in user space). -/
structure Ctx2D where
  scaleNum : Nat
  scaleDen : Nat
  lineCap : String
  lineJoin : String
  lineWidth : Nat
  strokeStyle : String
  path : List (List (Int × Int))
deriving DecidableEq

/-- The context of a canvas whose dimensions were just set. -/
def Ctx2D.reset : Ctx2D := ⟨1, 1, "butt", "miter", 1, "#000000", []⟩

/-- Models `ctx.beginPath()`. -/
def Ctx2D.beginPath (c : Ctx2D) : Ctx2D := { c with path := [] }

/-- Models `ctx.moveTo(x, y)`: a new subpath at the point. -/
def Ctx2D.moveTo (c : Ctx2D) (p : Int × Int) : Ctx2D := { c with path := c.path ++ [[p]] }

/-- Append a point to the last subpath; with no subpath, start one there. -/
def appendPoint : List (List (Int × Int)) → Int × Int → List (List (Int × Int))
  | [], p => [[p]]
  | [sub], p => [sub ++ [p]]
  | sub :: rest, p => sub :: appendPoint rest p

/-- Models `ctx.lineTo(x, y)`. -/
def Ctx2D.lineTo (c : Ctx2D) (p : Int × Int) : Ctx2D := { c with path := appendPoint c.path p }

/-- The browser's stroke rasteriser, `ctx.stroke()`: from the context (path,
transform, stroke configuration), the bitmap dimensions and the pixels before,
the pixels after.  It is not part of the script and is a parameter of the model. -/
abbrev Rasterizer := Ctx2D → Nat → Nat → (Nat → Nat → Pixel) → (Nat → Nat → Pixel)

/-- Is the device pixel at column `i`, row `j` wholly inside the rectangle
`(x, y, w, h)` of user space, under the scale `num / den`. -/
def coveredBy (num den : Nat) (x y w h : Int) (i j : Nat) : Bool :=
  decide (x * num ≤ (i : Int) * den) && decide (((i : Int) + 1) * den ≤ (x + w) * num) &&
  decide (y * num ≤ (j : Int) * den) && decide (((j : Int) + 1) * den ≤ (y + h) * num)

/-- Models `ctx.clearRect(x, y, w, h)`: the rectangle is taken through the current
transform and the pixels inside it become transparent black.  Pixels that the
rectangle covers only in part are blended by the browser; here they keep their
value, and nothing below depends on them. -/
def clearRect (c : Ctx2D) (x y w h : Int) (px : Nat → Nat → Pixel) : Nat → Nat → Pixel :=
  fun i j => if coveredBy c.scaleNum c.scaleDen x y w h i j then Pixel.blank else px i j

/-! ## The document view -/

/-- An `img` element created by a place operation, with the inline style the
script sets, the `onmousedown` handler of `makeDraggable` when installed, and
the four variables `pos1 .. pos4` of that closure.  `left` and `top` are in
pixels; for these absolutely positioned images they are also what `offsetLeft`
and `offsetTop` read. -/
structure Img where
  src : DataURL
  width : String
  height : String
  position : String
  top : Int
  left : Int
  className : String
  zIndex : String
  onmousedown : Bool
  pos1 : Int
  pos2 : Int
  pos3 : Int
  pos4 : Int
deriving DecidableEq

/-- A child of a sign-here element: markup text or a placed image. -/
inductive Node where
  | html (markup : String)
  | img (i : Img)
deriving DecidableEq

/-- A "Click here to sign" element: its children and its `style.border`. -/
structure SignHere where
  content : List Node
  border : String
deriving DecidableEq

/-- The placeholder every display function renders. -/
def SignHere.placeholder : SignHere :=
  ⟨[Node.html "<small style=\"color: #666;\">Click here to sign</small>"], ""⟩

/-- The document area: its class, the markup written by the last display
function, the sign-here elements in it, the images appended to it, and its
`style.position`. -/
structure DocView where
  className : String
  markup : String
  signHere : List SignHere
  appended : List Img
  position : String
deriving DecidableEq

/-! ## Session state -/

/-- The bounding client rectangle of the signature canvas. -/
structure Rect where
  left : Int
  top : Int
  width : Nat
  height : Nat
deriving DecidableEq

/-- A mouse event: the client coordinates of the pointer, in whole CSS pixels.
Coordinates as doubles are `DoubleEvent` below. -/
structure MouseEvent where
  clientX : Int
  clientY : Int
deriving DecidableEq

/-- The global variables of the script together with the parts of the page
they act on. -/
structure Session where
  rect : Rect
  dprNum : Nat
  dprDen : Nat
  canvas : Canvas
  canvasActive : Bool
  ctx : Ctx2D
  isDrawing : Bool
  savedSignature : Option DataURL
  currentFileType : Option String
  originalFileName : Option String
  signatureStatus : String
  view : DocView
  downloadEnabled : Bool
  documentOnmousemove : Option Nat
  documentOnmouseup : Option Nat

/-- A call on the PDF document under assembly. -/
inductive PdfOp where
  | addPage
  | addImage (format : String) (x : Int) (y : Int) (w : Nat) (hNum : Nat) (hDen : Nat)
deriving DecidableEq

/-- What an export shows or emits. -/
inductive Output where
  | alert (message : String)
  | consoleError (message : String)
  | downloadImage (filename : String) (png : DataURL)
  | downloadBlob (filename : String) (mime : String) (body : String)
  | pdfSave (filename : String) (ops : List PdfOp)
deriving DecidableEq

/-! ## Drawing -/

/-- Models `resizeCanvas`: setting the dimensions resets bitmap and context, then the
scale and the stroke configuration are applied. -/
def resizeCanvas (s : Session) : Session :=
  { s with
    canvas := Canvas.blank (s.rect.width * s.dprNum / s.dprDen) (s.rect.height * s.dprNum / s.dprDen)
    ctx := { Ctx2D.reset with
      scaleNum := s.dprNum, scaleDen := s.dprDen,
      lineCap := "round", lineJoin := "round", lineWidth := 2, strokeStyle := "#1e293b" } }

/-- Models `getPosition`, on whole pixels, where the subtraction is exact; on
doubles it is `getPositionDouble` below. -/
def getPosition (s : Session) (e : MouseEvent) : Int × Int :=
  (e.clientX - s.rect.left, e.clientY - s.rect.top)

/-- Models `startDrawing`. -/
def startDrawing (s : Session) (e : MouseEvent) : Session :=
  { s with
    isDrawing := true
    canvasActive := true
    ctx := (s.ctx.beginPath).moveTo (getPosition s e) }

/-- Models `draw`. -/
def draw (R : Rasterizer) (s : Session) (e : MouseEvent) : Session :=
  if !s.isDrawing then s
  else
    let ctx := s.ctx.lineTo (getPosition s e)
    { s with
      ctx := ctx
      canvas := { s.canvas with pixels := R ctx s.canvas.width s.canvas.height s.canvas.pixels } }

/-- Models `stopDrawing`. -/
def stopDrawing (s : Session) : Session :=
  { s with isDrawing := false, canvasActive := false }

/-- The pointer events the canvas listens to: `mousedown` (press), `mousemove`
(move), and `mouseup`, `mouseout` and `touchend`, which all run `stopDrawing`. -/
inductive PointerEvent where
  | press (e : MouseEvent)
  | move (e : MouseEvent)
  | release
  | leave
deriving DecidableEq

/-- The listener `setupEventListeners` registers for each event. -/
def dispatch (R : Rasterizer) (s : Session) : PointerEvent → Session
  | .press e => startDrawing s e
  | .move e => draw R s e
  | .release => stopDrawing s
  | .leave => stopDrawing s

/-- The session after a sequence of pointer events. -/
def runEvents (R : Rasterizer) (s : Session) (evs : List PointerEvent) : Session :=
  evs.foldl (dispatch R) s

/-- The page once `DOMContentLoaded` has run: the globals at their initial
values, the canvas sized by `resizeCanvas`, an empty document area. -/
def initialSession (rect : Rect) (dprNum dprDen : Nat) : Session :=
  resizeCanvas
    { rect := rect, dprNum := dprNum, dprDen := dprDen
      canvas := Canvas.blank 300 150, canvasActive := false, ctx := Ctx2D.reset
      isDrawing := false, savedSignature := none
      currentFileType := none, originalFileName := none
      signatureStatus := "", view := ⟨"document-area", "", [], [], ""⟩
      downloadEnabled := false
      documentOnmousemove := none, documentOnmouseup := none }

/-- Is the event one that ends a stroke (`mouseup`, `mouseout`, `touchend`). -/
def PointerEvent.ends : PointerEvent → Bool
  | .release => true
  | .leave => true
  | _ => false

/-! ## Signature management -/

/-- Models `updateSignatureStatus(message, type)`: the markup of the status element. -/
def updateSignatureStatus (s : Session) (message type : String) : Session :=
  { s with
    signatureStatus :=
      if message ≠ "" then "<div class=\"status status-" ++ type ++ "\">" ++ message ++ "</div>"
      else "" }

/-- Models `clearSignature`. -/
def clearSignature (s : Session) : Session :=
  updateSignatureStatus
    { s with
      canvas := { s.canvas with
        pixels := clearRect s.ctx 0 0 s.canvas.width s.canvas.height s.canvas.pixels } }
    "" ""

/-- Models `isCanvasEmpty`: the encoding of the canvas against the encoding of a new
canvas of the same dimensions. -/
def isCanvasEmpty (s : Session) : Bool :=
  decide (s.canvas.toDataURL "image/png"
    = (Canvas.blank s.canvas.width s.canvas.height).toDataURL "image/png")

/-- Models `saveSignature`. -/
def saveSignature (s : Session) : Session :=
  if isCanvasEmpty s then
    updateSignatureStatus s "Please draw your signature first" "info"
  else
    updateSignatureStatus
      { s with savedSignature := some (s.canvas.toDataURL "image/png") }
      "Signature saved successfully!" "success"

/-! ## Placing and dragging -/

/-- The text of the alert of both place operations. -/
def noSignatureMessage : String := "Please create and save your signature first!"

/-- Models `placeSignatureHere(element)`, the element being the `k`-th sign-here
element of the document area. -/
def placeSignatureHere (s : Session) (k : Nat) : Session × List Output :=
  match s.savedSignature with
  | none => (s, [Output.alert noSignatureMessage])
  | some sig =>
    let img : Img :=
      { src := sig, width := "180px", height := "50px", position := "absolute"
        top := 0, left := 0, className := "signature-placed", zIndex := ""
        onmousedown := false, pos1 := 0, pos2 := 0, pos3 := 0, pos4 := 0 }
    ({ s with view := { s.view with
        signHere := s.view.signHere.set k ⟨[Node.img img], "none"⟩ } }, [])

/-- Models `makeDraggable(element)`: the closure variables start at zero and the
`onmousedown` handler is installed. -/
def makeDraggable (i : Img) : Img :=
  { i with onmousedown := true, pos1 := 0, pos2 := 0, pos3 := 0, pos4 := 0 }

/-- Models `addSignatureToDocument`. -/
def addSignatureToDocument (s : Session) : Session × List Output :=
  match s.savedSignature with
  | none => (s, [Output.alert noSignatureMessage])
  | some sig =>
    let img : Img :=
      { src := sig, width := "150px", height := "60px", position := "absolute"
        top := 50, left := 50, className := "signature-placed", zIndex := "10"
        onmousedown := false, pos1 := 0, pos2 := 0, pos3 := 0, pos4 := 0 }
    ({ s with view := { s.view with
        position := "relative"
        appended := s.view.appended ++ [makeDraggable img] } }, [])

/-- The body of `dragMouseDown` on the variables of its closure. -/
def Img.dragMouseDown (i : Img) (e : MouseEvent) : Img :=
  { i with pos3 := e.clientX, pos4 := e.clientY }

/-- The body of `elementDrag` on the variables of its closure and the element. -/
def Img.elementDrag (i : Img) (e : MouseEvent) : Img :=
  let pos1 := i.pos3 - e.clientX
  let pos2 := i.pos4 - e.clientY
  { i with
    pos1 := pos1, pos2 := pos2, pos3 := e.clientX, pos4 := e.clientY
    top := i.top - pos2, left := i.left - pos1 }

/-- Apply `f` to the `k`-th image appended to the document area. -/
def updateAppended (s : Session) (k : Nat) (f : Img → Img) : Session :=
  match s.view.appended[k]? with
  | none => s
  | some i => { s with view := { s.view with appended := s.view.appended.set k (f i) } }

/-- Models `dragMouseDown` of the `k`-th appended image. -/
def dragMouseDown (s : Session) (k : Nat) (e : MouseEvent) : Session :=
  { updateAppended s k (fun i => i.dragMouseDown e) with
    documentOnmouseup := some k, documentOnmousemove := some k }

/-- Models `elementDrag` of the `k`-th appended image. -/
def elementDrag (s : Session) (k : Nat) (e : MouseEvent) : Session :=
  updateAppended s k (fun i => i.elementDrag e)

/-- Models `closeDragElement`. -/
def closeDragElement (s : Session) : Session :=
  { s with documentOnmouseup := none, documentOnmousemove := none }

/-- Mouse events on the document: a press on the `k`-th appended image, a move,
a release. -/
inductive DocEvent where
  | mousedownOn (k : Nat) (e : MouseEvent)
  | mousemove (e : MouseEvent)
  | mouseup
deriving DecidableEq

/-- The handler that runs for a document mouse event: `element.onmousedown`
of the pressed image, `document.onmousemove`, `document.onmouseup`. -/
def docDispatch (s : Session) : DocEvent → Session
  | .mousedownOn k e =>
    match s.view.appended[k]? with
    | some i => if i.onmousedown then dragMouseDown s k e else s
    | none => s
  | .mousemove e =>
    match s.documentOnmousemove with
    | some k => elementDrag s k e
    | none => s
  | .mouseup =>
    match s.documentOnmouseup with
    | some _ => closeDragElement s
    | none => s

/-- One drag session: a press on the `k`-th appended image followed by moves. -/
def dragSession (s : Session) (k : Nat) (press : MouseEvent) (moves : List MouseEvent) : Session :=
  (moves.map DocEvent.mousemove).foldl docDispatch (docDispatch s (DocEvent.mousedownOn k press))

/-- The position `(left, top)` of the `k`-th appended image. -/
def positionOf (s : Session) (k : Nat) : Option (Int × Int) :=
  (s.view.appended[k]?).map (fun i => (i.left, i.top))

/-- The pointer movement of each move event since the event before it. -/
def pointerDeltas : MouseEvent → List MouseEvent → List (Int × Int)
  | _, [] => []
  | p, e :: es => (e.clientX - p.clientX, e.clientY - p.clientY) :: pointerDeltas e es

/-- Component-wise sum of a list of vectors. -/
def vectorSum (ds : List (Int × Int)) : Int × Int :=
  ds.foldr (fun d acc => (d.1 + acc.1, d.2 + acc.2)) (0, 0)

/-- The last pointer position of a drag: that of the last move, or of the press. -/
def lastPointer (press : MouseEvent) (moves : List MouseEvent) : MouseEvent :=
  moves.getLastD press

/-! ## Upload -/

/-- An uploaded file: its media type, its name and its decoded content. -/
structure File where
  type : String
  name : String
  content : String
deriving DecidableEq

/-- The display function `reader.onload` of `handleFileUpload` selects. -/
inductive SourceKind where
  | image
  | pdf
  | text
  | word
  | rtf
  | unsupported
deriving DecidableEq, Repr

/-- The chain of tests in `reader.onload`, on `file.type` and the lower-cased
`file.name`. -/
def sourceKind (f : File) : SourceKind :=
  let fileType := f.type
  let fileName := toLowerCase f.name
  if startsWith fileType "image/" then .image
  else if fileType = "application/pdf" || endsWith fileName ".pdf" then .pdf
  else if fileType = "text/plain" || endsWith fileName ".txt" then .text
  else if endsWith fileName ".doc" || endsWith fileName ".docx"
      || includes fileType "document" || includes fileType "word" then .word
  else if endsWith fileName ".rtf" then .rtf
  else .unsupported

/-- JavaScript truthiness of a variable that is `null` or a string. -/
def truthy : Option String → Bool
  | none => false
  | some t => t ≠ ""

/-- Models `displayImageDocument`: the type is kept when it is an image type. -/
def displayImageDocument (s : Session) (src : String) : Session :=
  { s with
    currentFileType :=
      if !truthy s.currentFileType || !startsWith (s.currentFileType.getD "") "image/"
      then some "image/png" else s.currentFileType
    view := { s.view with markup := "image:" ++ src, signHere := [], appended := [] } }

/-- Models `displayPDFDocument`: type and name are stored again; the pages are shown
when the PDF library renders them, the preview with a sign-here element
otherwise. -/
def displayPDFDocument (s : Session) (pdfjsWorks : Bool) (f : File) : Session :=
  { s with
    currentFileType := some "application/pdf"
    originalFileName := some f.name
    view := { s.view with
      markup := (if pdfjsWorks then "pdf-pages:" else "pdf-preview:") ++ f.name
      signHere := if pdfjsWorks then [] else [SignHere.placeholder]
      appended := [] } }

/-- The display functions for text, Word and RTF sources: the extracted text
above one sign-here element. -/
def displayWithSignHere (s : Session) (label content : String) : Session :=
  { s with view := { s.view with
      markup := label ++ content, signHere := [SignHere.placeholder], appended := [] } }

/-- Models `handleFileUpload`, with the work of `reader.onload` done in place.  The
markup of the document area is kept as the name of the template and the text
put into it. -/
def handleFileUpload (s : Session) (pdfjsWorks : Bool) (file : Option File) : Session :=
  match file with
  | none => s
  | some f =>
    let s1 : Session :=
      { s with
        currentFileType := some f.type
        originalFileName := some f.name
        view := { s.view with className := "document-area has-content" } }
    let s2 : Session :=
      match sourceKind f with
      | .image => displayImageDocument s1 f.content
      | .pdf => displayPDFDocument s1 pdfjsWorks f
      | .text => displayWithSignHere s1 "text:" f.content
      | .word => displayWithSignHere s1 "word:" f.content
      | .rtf => displayWithSignHere s1 "rtf:" f.content
      | .unsupported =>
        { s1 with view := { s1.view with
            markup := "Unsupported File Format", signHere := [], appended := [] } }
    { s2 with downloadEnabled := true }

/-- Models `createSampleDoc`. -/
def createSampleDoc (s : Session) : Session :=
  { s with
    currentFileType := some "text/html"
    originalFileName := some "sample-document.html"
    view := { s.view with
      className := "document-area has-content"
      markup := "sample:Agreement Document"
      signHere := [SignHere.placeholder], appended := [] }
    downloadEnabled := true }

/-! ## Export -/

/-- What the page has outside the script when an export runs: whether the
rendering and PDF libraries are defined or can be loaded, what the renderer
returns (`none` when its promise rejects), whether the PDF library throws, the
scroll size of the document area, the pixels the manual fallback ends with, and
the text and markup of the document area. -/
structure Collaborators where
  html2canvasDefined : Bool
  html2canvasLoads : Bool
  html2canvasResult : Option Canvas
  jsPDFDefined : Bool
  jsPDFLoads : Bool
  jsPDFThrows : Bool
  scrollWidth : Nat
  scrollHeight : Nat
  manualPixels : Nat → Nat → Pixel
  innerText : String
  textContent : String
  innerHTML : String

/-- How a handler ends: normally, or by an exception nobody catches; each with
what it showed or emitted until then. -/
inductive Outcome where
  | done (out : List Output)
  | thrown (out : List Output)
deriving DecidableEq

/-- The outputs of an outcome. -/
def Outcome.outputs : Outcome → List Output
  | .done out => out
  | .thrown out => out

/-- An outcome after earlier outputs. -/
def Outcome.after (pre : List Output) : Outcome → Outcome
  | .done out => .done (pre ++ out)
  | .thrown out => .thrown (pre ++ out)

/-- Models `getImageExtension`. -/
def getImageExtension (s : Session) : String :=
  match s.currentFileType with
  | none => "png"
  | some t =>
    if t = "" then "png"
    else if includes t "jpeg" || includes t "jpg" then "jpg"
    else if includes t "png" then "png"
    else if includes t "gif" then "gif"
    else if includes t "webp" then "webp"
    else "png"

/-- Models `ctx.getImageData(0, 0, width, height).data`: four numbers per pixel, row
by row. -/
def imageData (c : Canvas) : List Nat :=
  (List.range c.height).flatMap (fun y =>
    (List.range c.width).flatMap (fun x =>
      let p := c.pixels x y
      [p.r, p.g, p.b, p.a]))

/-- The scan loop of `downloadCanvas`, `for (i = 0; i < data.length; i += 4)`,
on the part of the array from index `i` on.  An index past the end reads
`undefined`, and every comparison with it is false. -/
def scanContent : List Nat → Bool
  | r :: g :: b :: a :: rest =>
    if decide (a > 0) && (decide (r < 250) || decide (g < 250) || decide (b < 250)) then true
    else scanContent rest
  | _ => false

/-- The alert of `downloadCanvas` when the scan finds nothing. -/
def noContentMessage : String :=
  "No content detected in document. Please make sure your document is properly loaded."

/-- Models `downloadCanvas(canvas, filename)`.  `getImageData` throws for a bitmap
without pixels. -/
def downloadCanvas (c : Canvas) (filename : String) : Outcome :=
  if c.width = 0 ∨ c.height = 0 then .thrown []
  else if !scanContent (imageData c) then .done [Output.alert noContentMessage]
  else .done [Output.downloadImage filename (c.toDataURL "image/png")]

/-- The file name of the text, Word and PDF exports: the original name
without its extension and the suffix, or the fixed default. -/
def signedFileName (s : Session) (suffix fallback : String) : String :=
  if truthy s.originalFileName then stripExtension (s.originalFileName.getD "") ++ suffix
  else fallback

/-- Models `Math.ceil(imgHeight / pageHeight)` for `imgHeight = height * 210 / width`
and `pageHeight = 297`, in exact arithmetic; `none` is `Infinity` (width zero,
height positive), and `NaN` (both zero) gives a loop of no iteration. -/
def totalPages (c : Canvas) : Option Nat :=
  if c.width = 0 then (if c.height = 0 then some 0 else none)
  else some ((c.height * 210 + c.width * 297 - 1) / (c.width * 297))

/-- The calls of the page loop of `createPDFFromCanvas` for `i = 0 .. n - 1`. -/
def pdfPageOps (c : Canvas) (n : Nat) : List PdfOp :=
  (List.range n).flatMap (fun i =>
    (if i > 0 then [PdfOp.addPage] else [])
      ++ [PdfOp.addImage "JPEG" 0 (-((i : Int) * 297)) 210 (c.height * 210) c.width])

/-- Models `createPDFFromCanvas(canvas)`; `none` when the page loop never ends. -/
def createPDFFromCanvas (s : Session) (b : Collaborators) (c : Canvas) : Option Outcome :=
  if b.jsPDFThrows then
    some (Outcome.after
      [Output.consoleError "PDF creation failed:",
       Output.alert "PDF creation failed. Download will be saved as image instead."]
      (downloadCanvas c "signed-document.png"))
  else
    match totalPages c with
    | none => none
    | some n =>
      some (.done [Output.pdfSave (signedFileName s "_signed.pdf" "signed-document.pdf")
        (pdfPageOps c n)])

/-- Models `downloadAsText`. -/
def downloadAsText (s : Session) (b : Collaborators) : Outcome :=
  .done [Output.downloadBlob (signedFileName s "_signed.txt" "signed-document.txt") "text/plain"
    (if b.innerText ≠ "" then b.innerText else b.textContent)]

/-- The HTML document `downloadAsWord` writes around the markup of the document
area: the template of the script, character for character. -/
def wordDocument (innerHTML : String) : String :=
  "\n        <!DOCTYPE html>\n        <html>\n        <head>\n            <meta charset=\"UTF-8\">\n            <title>Signed Document</title>\n            <style>\n                body \x7b font-family: Arial, sans-serif; margin: 40px; line-height: 1.6; \x7d\n                img \x7b max-width: 100%; height: auto; \x7d\n            </style>\n        </head>\n        <body>\n            "
    ++ innerHTML ++
  "\n        </body>\n        </html>\n    "

/-- Models `downloadAsWord`. -/
def downloadAsWord (s : Session) (b : Collaborators) : Outcome :=
  .done [Output.downloadBlob (signedFileName s "_signed.html" "signed-document.html") "text/html"
    (wordDocument b.innerHTML)]

/-- The offscreen canvas of the manual fallback after `processDocumentContent`. -/
def manualCanvas (b : Collaborators) : Canvas :=
  ⟨max b.scrollWidth 800 * 2, max b.scrollHeight 600 * 2, b.manualPixels⟩

/-- The test `currentFileType && (currentFileType === 'text/plain' ||
(originalFileName && originalFileName.endsWith('.txt')))` of the manual path. -/
def manualIsText (s : Session) : Bool :=
  truthy s.currentFileType &&
    (s.currentFileType = some "text/plain" ||
      (truthy s.originalFileName && endsWith (s.originalFileName.getD "") ".txt"))

/-- The Word test of the manual path. -/
def manualIsWord (s : Session) : Bool :=
  truthy s.currentFileType &&
    (includes (s.currentFileType.getD "") "document" || includes (s.currentFileType.getD "") "word" ||
      (truthy s.originalFileName &&
        (endsWith (s.originalFileName.getD "") ".doc" || endsWith (s.originalFileName.getD "") ".docx")))

/-- An outcome after earlier outputs, when there is one. -/
def afterOutputs (pre : List Output) (r : Option Outcome) : Option Outcome :=
  r.map (Outcome.after pre)

mutual

/-- Models `downloadAsImage`.  The promise chains run in place; `fuel` bounds the
calls the three functions make to each other, and `none` is fuel used up. -/
def downloadAsImage : Nat → Session → Collaborators → Option Outcome
  | 0, _, _ => none
  | fuel + 1, s, b =>
    if b.html2canvasDefined then
      match b.html2canvasResult with
      | some canvas =>
        match downloadCanvas canvas ("signed-document." ++ getImageExtension s) with
        | .done out => some (.done out)
        | .thrown out =>
          afterOutputs (out ++ [Output.consoleError "html2canvas failed:"])
            (manualCanvasDownload fuel s b)
      | none =>
        afterOutputs [Output.consoleError "html2canvas failed:"] (manualCanvasDownload fuel s b)
    else if b.html2canvasLoads then
      downloadAsImage fuel s { b with html2canvasDefined := true }
    else manualCanvasDownload fuel s b

/-- Models `downloadAsPDF`. -/
def downloadAsPDF : Nat → Session → Collaborators → Option Outcome
  | 0, _, _ => none
  | fuel + 1, s, b =>
    if b.jsPDFDefined || b.jsPDFLoads then
      let b1 := { b with jsPDFDefined := true }
      if b1.html2canvasDefined then
        match b1.html2canvasResult with
        | some canvas =>
          match createPDFFromCanvas s b1 canvas with
          | none => none
          | some (.done out) => some (.done out)
          | some (.thrown out) =>
            afterOutputs (out ++ [Output.consoleError "html2canvas failed for PDF:"])
              (createPDFFromCanvas s b1 (manualCanvas b1))
        | none =>
          afterOutputs [Output.consoleError "html2canvas failed for PDF:"]
            (createPDFFromCanvas s b1 (manualCanvas b1))
      else if b1.html2canvasLoads then
        downloadAsPDF fuel s { b1 with html2canvasDefined := true }
      else createPDFFromCanvas s b1 (manualCanvas b1)
    else
      afterOutputs
        [Output.alert "Unable to load PDF library. Download will be saved as image instead."]
        (downloadAsImage fuel s b)

/-- Models `manualCanvasDownload`. -/
def manualCanvasDownload : Nat → Session → Collaborators → Option Outcome
  | 0, _, _ => none
  | fuel + 1, s, b =>
    if s.currentFileType = some "application/pdf" then downloadAsPDF fuel s b
    else if manualIsText s then some (downloadAsText s b)
    else if manualIsWord s then some (downloadAsWord s b)
    else some (downloadCanvas (manualCanvas b) ("signed-document." ++ getImageExtension s))

end

/-- The branch of `downloadDocument`. -/
inductive ExportBranch where
  | pdf
  | image
  | text
  | word
deriving DecidableEq, Repr

/-- The chain of tests of `downloadDocument`; `none` when it reads
`originalFileName.endsWith` of `null`, a TypeError. -/
def exportBranch (s : Session) : Option ExportBranch :=
  if truthy s.currentFileType && decide (s.currentFileType = some "application/pdf") then some .pdf
  else if truthy s.currentFileType && startsWith (s.currentFileType.getD "") "image/" then
    some .image
  else if !truthy s.currentFileType then some .image
  else
    let t := s.currentFileType.getD ""
    if t = "text/plain" then some .text
    else
      match s.originalFileName with
      | none => none
      | some n =>
        if endsWith n ".txt" then some .text
        else if includes t "document" || includes t "word" || endsWith n ".doc"
            || endsWith n ".docx" then some .word
        else some .image

/-- Models `downloadDocument`. -/
def downloadDocument (fuel : Nat) (s : Session) (b : Collaborators) : Option Outcome :=
  match exportBranch s with
  | none => some (.thrown [])
  | some .pdf => downloadAsPDF fuel s b
  | some .image => downloadAsImage fuel s b
  | some .text => some (downloadAsText s b)
  | some .word => some (downloadAsWord s b)

/-! ## Sample values -/

/-- A rasteriser that paints nothing. -/
def noInk : Rasterizer := fun _ _ _ px => px

/-- A rasteriser that paints, in the stroke colour, the device pixel under each
point of the path: a part of what the browser paints for a stroke. -/
def vertexRasterizer : Rasterizer := fun ctx _ _ px i j =>
  if ctx.path.any (fun sub => sub.any (fun p =>
      decide (p.1 * ctx.scaleNum / ctx.scaleDen = (i : Int))
        && decide (p.2 * ctx.scaleNum / ctx.scaleDen = (j : Int))))
  then ⟨30, 41, 59, 255⟩ else px i j

/-- A signature canvas of 400 by 200 CSS pixels at the page origin. -/
def sampleRect : Rect := ⟨0, 0, 400, 200⟩

/-- The signature image `addSignatureToDocument` appends, for a one-pixel
signature. -/
def sampleOverlay : Img :=
  { src := (Canvas.blank 1 1).toDataURL "image/png", width := "150px", height := "60px"
    position := "absolute", top := 50, left := 50, className := "signature-placed"
    zIndex := "10", onmousedown := true, pos1 := 0, pos2 := 0, pos3 := 0, pos4 := 0 }

/-- The sample document with a saved one-pixel signature added to it. -/
def sampleSigned : Session :=
  (addSignatureToDocument
    { createSampleDoc (initialSession sampleRect 1 1) with
      savedSignature := some ((Canvas.blank 1 1).toDataURL "image/png") }).1

/-- The page zoomed out to 50% (device pixel ratio 1/2): the 400 by 200 canvas
has a bitmap of 200 by 100, and one segment is drawn from (300, 100) to
(310, 100). -/
def zoomedOutStroke : Session :=
  runEvents vertexRasterizer (initialSession sampleRect 1 2)
    [PointerEvent.press ⟨300, 100⟩, PointerEvent.move ⟨310, 100⟩, PointerEvent.release]

/-- A signature canvas of 4 by 2 CSS pixels. -/
def tinyRect : Rect := ⟨0, 0, 4, 2⟩

/-- The 4 by 2 canvas after one segment from (1, 1) to (2, 1). -/
def tinyStroke : Session :=
  runEvents vertexRasterizer (initialSession tinyRect 1 1)
    [PointerEvent.press ⟨1, 1⟩, PointerEvent.move ⟨2, 1⟩]

/-- A raster of `w` by `h` opaque white pixels. -/
def whiteCanvas (w h : Nat) : Canvas := ⟨w, h, fun _ _ => ⟨255, 255, 255, 255⟩⟩

/-- A white raster of `w` by `h` pixels with one dark pixel at the origin. -/
def dotCanvas (w h : Nat) : Canvas :=
  ⟨w, h, fun x y => if x = 0 ∧ y = 0 then ⟨30, 41, 59, 255⟩ else ⟨255, 255, 255, 255⟩⟩

/-- The test of the scan on one pixel: not transparent, and some colour
channel below 250. -/
def Pixel.isContent (p : Pixel) : Prop :=
  0 < p.a ∧ (p.r < 250 ∨ p.g < 250 ∨ p.b < 250)

/-- The raster has a pixel that counts as content. -/
def hasContentPixel (c : Canvas) : Prop :=
  ∃ x y, x < c.width ∧ y < c.height ∧ (c.pixels x y).isContent

/-- The initial session with the given current file type. -/
def withFileType (t : Option String) : Session :=
  { initialSession sampleRect 1 1 with currentFileType := t }

/-- The session after the upload of a file, the PDF library working. -/
def afterUpload (type name : String) : Session :=
  handleFileUpload (initialSession sampleRect 1 1) true (some ⟨type, name, "Hello"⟩)

/-- Both libraries present and working, the renderer returning `c`, for a
document area of 800 by 600. -/
def rendering (c : Canvas) : Collaborators :=
  { html2canvasDefined := true, html2canvasLoads := true, html2canvasResult := some c
    jsPDFDefined := true, jsPDFLoads := true, jsPDFThrows := false
    scrollWidth := 800, scrollHeight := 600, manualPixels := c.pixels
    innerText := "Hello", textContent := "Hello", innerHTML := "<div>Hello</div>" }

/-! ## Touch input -/

/-- One contact point of a touch event. -/
structure Touch where
  clientX : Int
  clientY : Int
deriving DecidableEq

/-- A touch event: its type and its list of contact points. -/
structure TouchEvent where
  type : String
  touches : List Touch
deriving DecidableEq

/-- The type of the mouse event `handleTouch` builds for a touch event type. -/
def syntheticType (type : String) : String :=
  if type = "touchstart" then "mousedown"
  else if type = "touchmove" then "mousemove"
  else "mouseup"

/-- The events `handleTouch` dispatches on the canvas: none without a first
contact, else one mouse event at the client position of the first contact. -/
def touchDispatches (e : TouchEvent) : List (String × MouseEvent) :=
  match e.touches with
  | [] => []
  | touch :: _ => [(syntheticType e.type, ⟨touch.clientX, touch.clientY⟩)]

/-- The listeners of the canvas for a mouse event of the given type, as
`setupEventListeners` registers them. -/
def canvasDispatchEvent (R : Rasterizer) (s : Session) (type : String) (e : MouseEvent) :
    Session :=
  if type = "mousedown" then startDrawing s e
  else if type = "mousemove" then draw R s e
  else if type = "mouseup" then stopDrawing s
  else if type = "mouseout" then stopDrawing s
  else s

/-- Models `handleTouch`: every event it builds is dispatched on the canvas. -/
def handleTouch (R : Rasterizer) (s : Session) (e : TouchEvent) : Session :=
  (touchDispatches e).foldl (fun acc d => canvasDispatchEvent R acc d.1 d.2) s

/-- The image inside the `k`-th sign-here element, when its content is one
image. -/
def placedImage (s : Session) (k : Nat) : Option Img :=
  match s.view.signHere[k]? with
  | some ⟨[Node.img i], _⟩ => some i
  | _ => none

/-- A complete drag session on the `k`-th appended image: press, moves,
release. -/
def completeDrag (s : Session) (k : Nat) (press : MouseEvent) (moves : List MouseEvent) :
    Session :=
  docDispatch (dragSession s k press moves) DocEvent.mouseup

/-- Complete drag sessions one after the other, each with the index of the
image pressed, the press and the moves. -/
def runDrags (s : Session) (drags : List (Nat × MouseEvent × List MouseEvent)) : Session :=
  drags.foldl (fun acc d => completeDrag acc d.1 d.2.1 d.2.2) s

/-- The image at index `k` of the document area is one made draggable. -/
def isDraggable (s : Session) (k : Nat) : Prop :=
  ∃ i, s.view.appended[k]? = some i ∧ i.onmousedown = true

/-- The sample document with a saved one-pixel signature, nothing placed yet. -/
def sampleWithSignature : Session :=
  { createSampleDoc (initialSession sampleRect 1 1) with
    savedSignature := some ((Canvas.blank 1 1).toDataURL "image/png") }

/-- The sample document with the saved signature added twice. -/
def twoOverlays : Session :=
  (addSignatureToDocument (addSignatureToDocument sampleWithSignature).1).1

/-! ## Coordinates as doubles

A finite double is an integer number of units of 2^-1074, the smallest
positive double, so sums and differences of doubles are integers in that unit
and only the rounding of the result has to be modelled. -/

/-- Binary digits of a number below 2^64. -/
def bitsSmall : Nat → Nat → Nat
  | 0, _ => 0
  | fuel + 1, m => if m = 0 then 0 else bitsSmall fuel (m / 2) + 1

/-- Binary digits of a number, 64 at a time. -/
def bitsChunked : Nat → Nat → Nat
  | 0, _ => 0
  | fuel + 1, m => if m >>> 64 = 0 then bitsSmall 64 m else bitsChunked fuel (m >>> 64) + 64

/-- The number of binary digits of `m`, for `m` below 2^2560, which every sum
and difference of two finite doubles in these units is. -/
def bitLength (m : Nat) : Nat := bitsChunked 40 m

/-- The exact value `n` (in units of 2^-1074) rounded to 53 significant binary
digits, to nearest and on a tie to the even one: the rounding of IEEE 754
double arithmetic. -/
def roundDouble (n : Int) : Int :=
  let m := n.natAbs
  let bits := bitLength m
  if bits ≤ 53 then n
  else
    let shift := bits - 53
    let q := m >>> shift
    let r := m - (q <<< shift)
    let half := 1 <<< (shift - 1)
    let q1 := if r > half ∨ (r = half ∧ q % 2 = 1) then q + 1 else q
    if n < 0 then -((q1 <<< shift : Nat) : Int) else ((q1 <<< shift : Nat) : Int)

/-- The double an operation with exact result `n` returns; `none` stands for an
infinite result, a rounded magnitude of 2^1024 or more. -/
def doubleOf (n : Int) : Option Int :=
  if (roundDouble n).natAbs < 1 <<< 2098 then some (roundDouble n) else none

/-- The sum `a + b` of two doubles as JavaScript computes it. -/
def doubleAdd (a b : Int) : Option Int := doubleOf (a + b)

/-- The difference `a - b` of two doubles as JavaScript computes it. -/
def doubleSub (a b : Int) : Option Int := doubleOf (a - b)

/-- The number `m / 2^e`, for `e` up to 1074, in units of 2^-1074. -/
def dyadic (m : Int) (e : Nat) : Int :=
  if m < 0 then -((m.natAbs <<< (1074 - e) : Nat) : Int)
  else ((m.natAbs <<< (1074 - e) : Nat) : Int)

/-- The left and top of the bounding client rectangle of the canvas, as doubles. -/
structure DoubleRect where
  left : Int
  top : Int
deriving DecidableEq

/-- The client coordinates of an input event, as doubles. -/
structure DoubleEvent where
  clientX : Int
  clientY : Int
deriving DecidableEq

/-- What `getPosition` could read of the page: the rectangle of the canvas and
`window.devicePixelRatio`. -/
structure Viewport where
  rect : DoubleRect
  dprNum : Nat
  dprDen : Nat
deriving DecidableEq

/-- Models `getPosition` on doubles. -/
def getPositionDouble (v : Viewport) (e : DoubleEvent) : Option Int × Option Int :=
  (doubleSub e.clientX v.rect.left, doubleSub e.clientY v.rect.top)

/-- The page scrolled by `(dx, dy)`: the rectangle and the client coordinates
of the same point, each the double sum of the old value and the offset; `none`
when a sum is infinite. -/
def scrolled (v : Viewport) (e : DoubleEvent) (dx dy : Int) : Option (Viewport × DoubleEvent) :=
  match doubleAdd v.rect.left dx, doubleAdd v.rect.top dy,
      doubleAdd e.clientX dx, doubleAdd e.clientY dy with
  | some l, some t, some x, some y => some ({ v with rect := ⟨l, t⟩ }, ⟨x, y⟩)
  | _, _, _, _ => none

/-- The libraries present, the renderer rejecting. -/
def renderingFails : Collaborators :=
  { html2canvasDefined := true, html2canvasLoads := true, html2canvasResult := none
    jsPDFDefined := true, jsPDFLoads := true, jsPDFThrows := false
    scrollWidth := 800, scrollHeight := 600, manualPixels := (dotCanvas 2 2).pixels
    innerText := "Hello", textContent := "Hello", innerHTML := "<div>Hello</div>" }

/-! ## The drawing state machine -/

theorem runEvents_append (R : Rasterizer) (s : Session) (xs ys : List PointerEvent) :
    runEvents R s (xs ++ ys) = runEvents R (runEvents R s xs) ys := by
  simp [runEvents, List.foldl_append]

theorem draw_isDrawing (R : Rasterizer) (s : Session) (e : MouseEvent) :
    (draw R s e).isDrawing = s.isDrawing := by
  unfold draw
  split <;> rfl

theorem draw_canvasActive (R : Rasterizer) (s : Session) (e : MouseEvent) :
    (draw R s e).canvasActive = s.canvasActive := by
  unfold draw
  split <;> rfl

/-- The class `active` is on the canvas exactly while the flag is set. -/
theorem canvasActive_eq_isDrawing (R : Rasterizer) (rect : Rect) (n d : Nat)
    (evs : List PointerEvent) :
    (runEvents R (initialSession rect n d) evs).canvasActive
      = (runEvents R (initialSession rect n d) evs).isDrawing := by
  induction evs using List.reverseRecOn with
  | nil => rfl
  | append_singleton xs x ih =>
    rw [runEvents_append]
    cases x with
    | press e => rfl
    | move e =>
      simp only [runEvents, List.foldl_cons, List.foldl_nil, dispatch]
      rw [draw_isDrawing, draw_canvasActive]
      exact ih
    | release => rfl
    | leave => rfl

theorem stopDrawing_idle (s : Session) (h1 : s.isDrawing = false) (h2 : s.canvasActive = false) :
    stopDrawing s = s := by
  cases s
  simp only [stopDrawing] at *
  subst h1 h2
  rfl

theorem isDrawing_runEvents (R : Rasterizer) (s : Session) (evs : List PointerEvent) :
    (runEvents R s evs).isDrawing = true ↔
      (∃ pre e post, evs = pre ++ PointerEvent.press e :: post ∧ ∀ x ∈ post, x.ends = false)
      ∨ (s.isDrawing = true ∧ ∀ x ∈ evs, x.ends = false) := by
  induction evs using List.reverseRecOn with
  | nil => simp [runEvents]
  | append_singleton xs x ih =>
    rw [runEvents_append]
    cases x with
    | press e =>
      constructor
      · intro _
        exact Or.inl ⟨xs, e, [], rfl, by simp⟩
      · intro _
        rfl
    | move e =>
      have hstep : (runEvents R (runEvents R s xs) [PointerEvent.move e]).isDrawing
          = (runEvents R s xs).isDrawing := by
        simp only [runEvents, List.foldl_cons, List.foldl_nil, dispatch]
        exact draw_isDrawing R _ e
      rw [hstep, ih]
      constructor
      · rintro (⟨pre, p, post, rfl, hpost⟩ | ⟨hs, hall⟩)
        · refine Or.inl ⟨pre, p, post ++ [PointerEvent.move e], by simp, ?_⟩
          intro x hx
          rcases List.mem_append.mp hx with hx | hx
          · exact hpost x hx
          · rw [List.mem_singleton.mp hx]; rfl
        · refine Or.inr ⟨hs, ?_⟩
          intro x hx
          rcases List.mem_append.mp hx with hx | hx
          · exact hall x hx
          · rw [List.mem_singleton.mp hx]; rfl
      · rintro (⟨pre, p, post, heq, hpost⟩ | ⟨hs, hall⟩)
        · rcases List.eq_nil_or_concat post with rfl | ⟨post1, y, rfl⟩
          · have := congrArg List.getLast? heq
            simp at this
          · have heq2 : xs ++ [PointerEvent.move e] = (pre ++ PointerEvent.press p :: post1) ++ [y] := by
              rw [heq]; simp
            have h3 := List.append_inj_left' heq2 rfl
            refine Or.inl ⟨pre, p, post1, h3, ?_⟩
            intro x hx
            exact hpost x (by simp [hx])
        · exact Or.inr ⟨hs, fun x hx => hall x (by simp [hx])⟩
    | release =>
      constructor
      · intro h
        exact absurd h (by simp [runEvents, dispatch, stopDrawing])
      · rintro (⟨pre, p, post, heq, hpost⟩ | ⟨_, hall⟩)
        · have hmem : PointerEvent.release ∈ post := by
            rcases List.eq_nil_or_concat post with rfl | ⟨post1, y, rfl⟩
            · have := congrArg List.getLast? heq
              simp at this
            · have heq2 : xs ++ [PointerEvent.release]
                  = (pre ++ PointerEvent.press p :: post1) ++ [y] := by
                rw [heq]; simp
              have h3 := List.append_inj_right' heq2 rfl
              simp only [List.cons.injEq, and_true] at h3
              simp [h3]
          exact absurd (hpost _ hmem) (by simp [PointerEvent.ends])
        · exact absurd (hall PointerEvent.release (by simp)) (by simp [PointerEvent.ends])
    | leave =>
      constructor
      · intro h
        exact absurd h (by simp [runEvents, dispatch, stopDrawing])
      · rintro (⟨pre, p, post, heq, hpost⟩ | ⟨_, hall⟩)
        · have hmem : PointerEvent.leave ∈ post := by
            rcases List.eq_nil_or_concat post with rfl | ⟨post1, y, rfl⟩
            · have := congrArg List.getLast? heq
              simp at this
            · have heq2 : xs ++ [PointerEvent.leave]
                  = (pre ++ PointerEvent.press p :: post1) ++ [y] := by
                rw [heq]; simp
              have h3 := List.append_inj_right' heq2 rfl
              simp only [List.cons.injEq, and_true] at h3
              simp [h3]
          exact absurd (hpost _ hmem) (by simp [PointerEvent.ends])
        · exact absurd (hall PointerEvent.leave (by simp)) (by simp [PointerEvent.ends])

/-- C1: from the initial state, after any sequence of press, move and
release/leave events the flag `isDrawing` is true exactly when some press has
no release or leave after it; a move never changes the flag; a release or
leave while idle leaves the whole session unchanged. -/
theorem drawing_flag_follows_press_release (R : Rasterizer) (rect : Rect) (n d : Nat)
    (evs : List PointerEvent) :
    ((runEvents R (initialSession rect n d) evs).isDrawing = true ↔
        ∃ pre e post, evs = pre ++ PointerEvent.press e :: post ∧ ∀ x ∈ post, x.ends = false)
    ∧ (∀ e, (dispatch R (runEvents R (initialSession rect n d) evs) (PointerEvent.move e)).isDrawing
        = (runEvents R (initialSession rect n d) evs).isDrawing)
    ∧ ((runEvents R (initialSession rect n d) evs).isDrawing = false →
        dispatch R (runEvents R (initialSession rect n d) evs) PointerEvent.release
            = runEvents R (initialSession rect n d) evs
          ∧ dispatch R (runEvents R (initialSession rect n d) evs) PointerEvent.leave
            = runEvents R (initialSession rect n d) evs) := by
  refine ⟨?_, ?_, ?_⟩
  · rw [isDrawing_runEvents]
    constructor
    · rintro (h | ⟨h, _⟩)
      · exact h
      · exact absurd h (by simp [initialSession, resizeCanvas])
    · intro h
      exact Or.inl h
  · intro e
    exact draw_isDrawing R _ e
  · intro h
    have hact := canvasActive_eq_isDrawing R rect n d evs
    rw [h] at hact
    exact ⟨stopDrawing_idle _ h hact, stopDrawing_idle _ h hact⟩

/-- C1, at press, move, release: the session is idle and a second release
changes nothing. -/
theorem drawing_flag_follows_press_release_witness :
    (runEvents noInk (initialSession sampleRect 1 1)
        [PointerEvent.press ⟨10, 10⟩, PointerEvent.move ⟨20, 15⟩, PointerEvent.release]).isDrawing
      = false
    ∧ dispatch noInk (runEvents noInk (initialSession sampleRect 1 1)
        [PointerEvent.press ⟨10, 10⟩, PointerEvent.move ⟨20, 15⟩, PointerEvent.release])
        PointerEvent.release
      = runEvents noInk (initialSession sampleRect 1 1)
        [PointerEvent.press ⟨10, 10⟩, PointerEvent.move ⟨20, 15⟩, PointerEvent.release] :=
  ⟨rfl, ((drawing_flag_follows_press_release noInk sampleRect 1 1
    [PointerEvent.press ⟨10, 10⟩, PointerEvent.move ⟨20, 15⟩, PointerEvent.release]).2.2 rfl).1⟩

/-! ## Placing without a signature -/

/-- C2: with no saved signature, both place operations show the "no
signature" alert and return the session, and with it the document view, as it
was. -/
theorem place_without_signature (s : Session) (k : Nat) (h : s.savedSignature = none) :
    placeSignatureHere s k = (s, [Output.alert noSignatureMessage])
    ∧ addSignatureToDocument s = (s, [Output.alert noSignatureMessage]) := by
  simp [placeSignatureHere, addSignatureToDocument, h]

/-- C2, on the sample document before any signature is saved. -/
theorem place_without_signature_witness :
    (createSampleDoc (initialSession sampleRect 1 1)).savedSignature = none
    ∧ (placeSignatureHere (createSampleDoc (initialSession sampleRect 1 1)) 0).1.view
        = (createSampleDoc (initialSession sampleRect 1 1)).view
    ∧ (addSignatureToDocument (createSampleDoc (initialSession sampleRect 1 1))).2
        = [Output.alert noSignatureMessage] :=
  ⟨rfl,
   congrArg (fun r => r.1.view)
     (place_without_signature (createSampleDoc (initialSession sampleRect 1 1)) 0 rfl).1,
   congrArg Prod.snd
     (place_without_signature (createSampleDoc (initialSession sampleRect 1 1)) 0 rfl).2⟩

/-! ## Dragging -/

theorem elementDrag_fold_position (moves : List MouseEvent) (i : Img) :
    (moves.foldl Img.elementDrag i).left
        = i.left + ((moves.getLastD ⟨i.pos3, i.pos4⟩).clientX - i.pos3)
    ∧ (moves.foldl Img.elementDrag i).top
        = i.top + ((moves.getLastD ⟨i.pos3, i.pos4⟩).clientY - i.pos4) := by
  induction moves generalizing i with
  | nil => simp
  | cons e es ih =>
    have h := ih (i.elementDrag e)
    simp only [List.foldl_cons, List.getLastD_cons]
    simp only [Img.elementDrag] at h ⊢
    constructor
    · rw [h.1]; ring
    · rw [h.2]; ring

theorem vectorSum_pointerDeltas (moves : List MouseEvent) (p : MouseEvent) :
    vectorSum (pointerDeltas p moves)
      = ((moves.getLastD p).clientX - p.clientX, (moves.getLastD p).clientY - p.clientY) := by
  induction moves generalizing p with
  | nil => simp [pointerDeltas, vectorSum]
  | cons e es ih =>
    have h := ih e
    simp only [vectorSum] at h
    simp only [pointerDeltas, vectorSum, List.foldr_cons, List.getLastD_cons, h]
    ext <;> simp

theorem moves_fold_appended (moves : List MouseEvent) (s : Session) (k : Nat) (i : Img)
    (hk : s.view.appended[k]? = some i) (hm : s.documentOnmousemove = some k) :
    ((moves.map DocEvent.mousemove).foldl docDispatch s).view.appended[k]?
      = some (moves.foldl Img.elementDrag i) := by
  induction moves generalizing s i with
  | nil => simpa using hk
  | cons e es ih =>
    simp only [List.map_cons, List.foldl_cons]
    apply ih
    · simp only [docDispatch, hm, elementDrag, updateAppended, hk]
      have hlt : k < s.view.appended.length := by
        rcases List.getElem?_eq_some_iff.mp hk with ⟨h, _⟩
        exact h
      simp [hlt]
    · simp only [docDispatch, hm, elementDrag, updateAppended, hk]

theorem dragSession_appended (s : Session) (k : Nat) (i : Img) (press : MouseEvent)
    (moves : List MouseEvent) (hk : s.view.appended[k]? = some i) (hd : i.onmousedown = true) :
    (dragSession s k press moves).view.appended[k]?
      = some (moves.foldl Img.elementDrag (i.dragMouseDown press)) := by
  unfold dragSession
  apply moves_fold_appended
  · have hlt : k < s.view.appended.length := by
      rcases List.getElem?_eq_some_iff.mp hk with ⟨h, _⟩
      exact h
    simp [docDispatch, hk, hd, dragMouseDown, updateAppended, hlt]
  · simp [docDispatch, hk, hd, dragMouseDown]

/-- C3: in one drag session on an image made draggable, after the press and any
sequence of moves the image is at its start position plus the last pointer
position minus the press position, which is the start position plus the sum of
the pointer deltas of the moves; two move sequences ending at the same pointer
position leave it at the same place. -/
theorem drag_adds_total_displacement (s : Session) (k : Nat) (i : Img) (press : MouseEvent)
    (moves : List MouseEvent) (hk : s.view.appended[k]? = some i) (hd : i.onmousedown = true) :
    positionOf (dragSession s k press moves) k
        = some (i.left + ((lastPointer press moves).clientX - press.clientX),
                i.top + ((lastPointer press moves).clientY - press.clientY))
    ∧ positionOf (dragSession s k press moves) k
        = some (i.left + (vectorSum (pointerDeltas press moves)).1,
                i.top + (vectorSum (pointerDeltas press moves)).2)
    ∧ ∀ other : List MouseEvent, lastPointer press other = lastPointer press moves →
        positionOf (dragSession s k press other) k = positionOf (dragSession s k press moves) k := by
  have key : ∀ ms : List MouseEvent, positionOf (dragSession s k press ms) k
      = some (i.left + ((lastPointer press ms).clientX - press.clientX),
              i.top + ((lastPointer press ms).clientY - press.clientY)) := by
    intro ms
    have h := elementDrag_fold_position ms (i.dragMouseDown press)
    simp only [positionOf, dragSession_appended s k i press ms hk hd, Option.map_some', h.1, h.2]
    rfl
  refine ⟨key moves, ?_, ?_⟩
  · rw [key moves, vectorSum_pointerDeltas]
    rfl
  · intro other h
    rw [key other, key moves, h]

/-- C3, on a signature added to the sample document: pressed at (60, 70) and
moved through (65, 72) to (100, 40), it ends at (90, 20), as when moved there
at once. -/
theorem drag_adds_total_displacement_witness :
    positionOf (dragSession sampleSigned 0 ⟨60, 70⟩ [⟨65, 72⟩, ⟨100, 40⟩]) 0 = some (90, 20)
    ∧ positionOf (dragSession sampleSigned 0 ⟨60, 70⟩ [⟨100, 40⟩]) 0 = some (90, 20) :=
  ⟨(drag_adds_total_displacement sampleSigned 0 sampleOverlay ⟨60, 70⟩ [⟨65, 72⟩, ⟨100, 40⟩]
      rfl rfl).1,
   (drag_adds_total_displacement sampleSigned 0 sampleOverlay ⟨60, 70⟩ [⟨100, 40⟩] rfl rfl).1⟩

/-! ## The emptiness test -/

theorem toDataURL_eq_blank_iff (c : Canvas) (mime : String) :
    c.toDataURL mime = (Canvas.blank c.width c.height).toDataURL mime ↔
      ∀ y < c.height, ∀ x < c.width, c.pixels x y = Pixel.blank := by
  simp only [Canvas.toDataURL, Canvas.blank, DataURL.mk.injEq, true_and]
  rw [List.map_inj_left]
  constructor
  · intro h y hy
    have := h y (List.mem_range.mpr hy)
    rw [List.map_inj_left] at this
    intro x hx
    exact this x (List.mem_range.mpr hx)
  · intro h y hy
    rw [List.map_inj_left]
    intro x hx
    exact h y (List.mem_range.mp hy) x (List.mem_range.mp hx)

theorem isCanvasEmpty_iff (s : Session) :
    isCanvasEmpty s = true ↔
      ∀ y < s.canvas.height, ∀ x < s.canvas.width, s.canvas.pixels x y = Pixel.blank := by
  simp only [isCanvasEmpty, decide_eq_true_eq]
  exact toDataURL_eq_blank_iff s.canvas "image/png"

/-- Ink on a pixel that the cleared rectangle does not cover survives
`clearSignature`, and the canvas is then not empty. -/
theorem clearSignature_keeps_uncovered_ink (s : Session) (x y : Nat)
    (hx : x < s.canvas.width) (hy : y < s.canvas.height)
    (hink : s.canvas.pixels x y ≠ Pixel.blank)
    (hout : coveredBy s.ctx.scaleNum s.ctx.scaleDen 0 0 s.canvas.width s.canvas.height x y = false) :
    isCanvasEmpty (clearSignature s) = false := by
  rw [Bool.eq_false_iff]
  intro h
  rw [isCanvasEmpty_iff] at h
  have := h y hy x hx
  simp only [clearSignature, updateSignatureStatus, clearRect, hout] at this
  exact hink (by simpa using this)

/-- With a scale of at least one, `clearSignature` leaves the canvas empty. -/
theorem clearSignature_empty_of_scale_ge_one (s : Session)
    (hden : 0 < s.ctx.scaleDen) (hscale : s.ctx.scaleDen ≤ s.ctx.scaleNum) :
    isCanvasEmpty (clearSignature s) = true := by
  rw [isCanvasEmpty_iff]
  intro y hy x hx
  have hx1 : x + 1 ≤ s.canvas.width := hx
  have hy1 : y + 1 ≤ s.canvas.height := hy
  have hcov : coveredBy s.ctx.scaleNum s.ctx.scaleDen 0 0 s.canvas.width s.canvas.height x y
      = true := by
    simp only [coveredBy, Bool.and_eq_true, decide_eq_true_eq]
    have e1 : (x + 1) * s.ctx.scaleDen ≤ s.canvas.width * s.ctx.scaleNum :=
      Nat.mul_le_mul hx1 hscale
    have e2 : (y + 1) * s.ctx.scaleDen ≤ s.canvas.height * s.ctx.scaleNum :=
      Nat.mul_le_mul hy1 hscale
    refine ⟨⟨⟨?_, ?_⟩, ?_⟩, ?_⟩
    · simp; positivity
    · simp only [zero_add]; exact_mod_cast e1
    · simp; positivity
    · simp only [zero_add]; exact_mod_cast e2
  simp only [clearSignature, updateSignatureStatus, clearRect] at hcov ⊢
  simp [hcov]

/-- C4: with the page zoomed out to 50%, a segment drawn in the right half of
the canvas is still there after `clearSignature`, and `isCanvasEmpty` then
returns false; the rectangle cleared is a quarter of the bitmap. -/
theorem clearSignature_not_empty_zoomed_out :
    zoomedOutStroke.canvas.width = 200 ∧ zoomedOutStroke.canvas.height = 100
    ∧ zoomedOutStroke.canvas.pixels 150 50 = ⟨30, 41, 59, 255⟩
    ∧ (clearSignature zoomedOutStroke).canvas.pixels 150 50 = ⟨30, 41, 59, 255⟩
    ∧ (clearSignature zoomedOutStroke).canvas.pixels 99 49 = Pixel.blank
    ∧ isCanvasEmpty (clearSignature zoomedOutStroke) = false := by
  refine ⟨by decide, by decide, by decide, by decide, by decide, ?_⟩
  exact clearSignature_keeps_uncovered_ink zoomedOutStroke 150 50 (by decide) (by decide)
    (by decide) (by decide)

/-! ## Saving the signature -/

/-- C5: on a canvas the emptiness test reports empty, `saveSignature` changes
only the status text, to the informational message, and the saved signature
stays as it was; on any other canvas it sets the saved signature to the PNG
encoding of the canvas and the status to the success message. -/
theorem saveSignature_gated_by_emptiness (s : Session) :
    (isCanvasEmpty s = true →
      saveSignature s = { s with signatureStatus :=
          "<div class=\"status status-info\">Please draw your signature first</div>" }
      ∧ (saveSignature s).savedSignature = s.savedSignature)
    ∧ (isCanvasEmpty s = false →
      saveSignature s = { s with
          savedSignature := some (s.canvas.toDataURL "image/png")
          signatureStatus :=
            "<div class=\"status status-success\">Signature saved successfully!</div>" }) := by
  constructor
  · intro h
    simp only [saveSignature, h, if_true, updateSignatureStatus]
    exact ⟨rfl, trivial⟩
  · intro h
    simp only [saveSignature, h, updateSignatureStatus]
    rfl

/-- C5, on a blank 4 by 2 canvas and on the same canvas with one segment. -/
theorem saveSignature_gated_by_emptiness_witness :
    (saveSignature (initialSession tinyRect 1 1)).savedSignature = none
    ∧ (saveSignature tinyStroke).savedSignature = some (tinyStroke.canvas.toDataURL "image/png")
    ∧ (saveSignature tinyStroke).signatureStatus
        = "<div class=\"status status-success\">Signature saved successfully!</div>" :=
  ⟨((saveSignature_gated_by_emptiness (initialSession tinyRect 1 1)).1 (by decide)).2,
   congrArg Session.savedSignature
     ((saveSignature_gated_by_emptiness tinyStroke).2 (by decide)),
   congrArg Session.signatureStatus
     ((saveSignature_gated_by_emptiness tinyStroke).2 (by decide))⟩

/-! ## The export scan -/

theorem scanContent_step (r g b a : Nat) (rest : List Nat) :
    scanContent (r :: g :: b :: a :: rest) = true ↔
      (Pixel.mk r g b a).isContent ∨ scanContent rest = true := by
  simp only [scanContent, Pixel.isContent]
  split
  · rename_i h
    simp only [Bool.and_eq_true, Bool.or_eq_true, decide_eq_true_eq] at h
    simp only [true_iff]
    left
    exact ⟨h.1, by tauto⟩
  · rename_i h
    simp only [Bool.and_eq_true, Bool.or_eq_true, decide_eq_true_eq] at h
    constructor
    · intro hr
      exact Or.inr hr
    · rintro (hc | hr)
      · exact absurd ⟨hc.1, by tauto⟩ h
      · exact hr

theorem scanContent_quads {α : Type} (f : α → Pixel) (l : List α) (rest : List Nat) :
    scanContent (l.flatMap (fun x => [(f x).r, (f x).g, (f x).b, (f x).a]) ++ rest) = true ↔
      (∃ x ∈ l, (f x).isContent) ∨ scanContent rest = true := by
  induction l with
  | nil => simp
  | cons a as ih =>
    have hstep := scanContent_step (f a).r (f a).g (f a).b (f a).a
      (as.flatMap (fun x => [(f x).r, (f x).g, (f x).b, (f x).a]) ++ rest)
    have hshape : (a :: as).flatMap (fun x => [(f x).r, (f x).g, (f x).b, (f x).a]) ++ rest
        = (f a).r :: (f a).g :: (f a).b :: (f a).a
            :: (as.flatMap (fun x => [(f x).r, (f x).g, (f x).b, (f x).a]) ++ rest) := by
      simp [List.flatMap_cons]
    rw [hshape, hstep, ih]
    constructor
    · rintro (hc | ⟨x, hx, hc⟩ | hr)
      · exact Or.inl ⟨a, List.mem_cons_self _ _, hc⟩
      · exact Or.inl ⟨x, List.mem_cons_of_mem _ hx, hc⟩
      · exact Or.inr hr
    · rintro (⟨x, hx, hc⟩ | hr)
      · rcases List.mem_cons.mp hx with rfl | hx
        · exact Or.inl hc
        · exact Or.inr (Or.inl ⟨x, hx, hc⟩)
      · exact Or.inr (Or.inr hr)

theorem scanContent_rows (px : Nat → Nat → Pixel) (cols : List Nat) (rows : List Nat)
    (rest : List Nat) :
    scanContent (rows.flatMap (fun y =>
        cols.flatMap (fun x => [(px x y).r, (px x y).g, (px x y).b, (px x y).a])) ++ rest) = true ↔
      (∃ y ∈ rows, ∃ x ∈ cols, (px x y).isContent) ∨ scanContent rest = true := by
  induction rows with
  | nil => simp
  | cons r rs ih =>
    simp only [List.flatMap_cons, List.append_assoc]
    rw [scanContent_quads (fun x => px x r), ih]
    constructor
    · rintro (⟨x, hx, hc⟩ | ⟨y, hy, x, hx, hc⟩ | hr)
      · exact Or.inl ⟨r, List.mem_cons_self _ _, x, hx, hc⟩
      · exact Or.inl ⟨y, List.mem_cons_of_mem _ hy, x, hx, hc⟩
      · exact Or.inr hr
    · rintro (⟨y, hy, x, hx, hc⟩ | hr)
      · rcases List.mem_cons.mp hy with rfl | hy
        · exact Or.inl ⟨x, hx, hc⟩
        · exact Or.inr (Or.inl ⟨y, hy, x, hx, hc⟩)
      · exact Or.inr (Or.inr hr)

theorem scanContent_imageData (c : Canvas) :
    scanContent (imageData c) = true ↔ hasContentPixel c := by
  have h := scanContent_rows c.pixels (List.range c.width) (List.range c.height) []
  simp only [List.append_nil] at h
  unfold imageData
  rw [h]
  simp only [hasContentPixel, List.mem_range, scanContent, Bool.false_eq_true, or_false]
  constructor
  · rintro ⟨y, hy, x, hx, hc⟩
    exact ⟨x, y, hx, hy, hc⟩
  · rintro ⟨x, y, hx, hy, hc⟩
    exact ⟨y, hy, x, hx, hc⟩

theorem downloadCanvas_of_no_content (c : Canvas) (filename : String)
    (hno : ¬ hasContentPixel c) (hw : 0 < c.width) (hh : 0 < c.height) :
    downloadCanvas c filename = Outcome.done [Output.alert noContentMessage] := by
  have hs : scanContent (imageData c) = false := by
    rw [Bool.eq_false_iff]
    exact fun h => hno ((scanContent_imageData c).mp h)
  have hdim : ¬ (c.width = 0 ∨ c.height = 0) := by omega
  simp [downloadCanvas, hdim, hs]

theorem whiteCanvas_no_content (w h : Nat) : ¬ hasContentPixel (whiteCanvas w h) := by
  simp [hasContentPixel, Pixel.isContent, whiteCanvas]

/-- C6: `downloadCanvas` emits the download exactly when some pixel of the
raster has alpha above 0 and a red, green or blue channel below 250; when no
pixel has, nothing it shows or emits is a file, and for a raster that has
pixels it shows the "no content" alert and nothing else. -/
theorem downloadCanvas_emits_iff_content (c : Canvas) (filename : String) :
    (downloadCanvas c filename
        = Outcome.done [Output.downloadImage filename (c.toDataURL "image/png")]
      ↔ hasContentPixel c)
    ∧ (¬ hasContentPixel c →
        ∀ o ∈ (downloadCanvas c filename).outputs, o = Output.alert noContentMessage)
    ∧ (¬ hasContentPixel c → 0 < c.width → 0 < c.height →
        downloadCanvas c filename = Outcome.done [Output.alert noContentMessage]) := by
  have hscan := scanContent_imageData c
  by_cases hdim : c.width = 0 ∨ c.height = 0
  · have hno : ¬ hasContentPixel c := by
      rintro ⟨x, y, hx, hy, _⟩
      rcases hdim with h | h <;> omega
    refine ⟨?_, ?_, ?_⟩
    · simp [downloadCanvas, hdim, hno]
    · intro _ o ho
      simp [downloadCanvas, hdim, Outcome.outputs] at ho
    · intro _ hw hh
      rcases hdim with h | h <;> omega
  · by_cases hc : hasContentPixel c
    · have hs : scanContent (imageData c) = true := hscan.mpr hc
      refine ⟨?_, fun h => absurd hc h, fun h => absurd hc h⟩
      simp [downloadCanvas, hdim, hs, hc]
    · have hs : scanContent (imageData c) = false := by
        rw [Bool.eq_false_iff]
        exact fun h => hc (hscan.mp h)
      refine ⟨?_, ?_, ?_⟩
      · simp [downloadCanvas, hdim, hs, hc]
      · intro _ o ho
        simpa [downloadCanvas, hdim, hs, Outcome.outputs] using ho
      · intro _ _ _
        simp [downloadCanvas, hdim, hs]

/-- C6, on a white raster of 2 by 2 pixels: the alert and no file. -/
theorem downloadCanvas_emits_iff_content_witness :
    ¬ hasContentPixel (whiteCanvas 2 2)
    ∧ downloadCanvas (whiteCanvas 2 2) "signed-document.png"
        = Outcome.done [Output.alert noContentMessage] :=
  ⟨by simp [hasContentPixel, Pixel.isContent, whiteCanvas],
   (downloadCanvas_emits_iff_content (whiteCanvas 2 2) "signed-document.png").2.2
     (by simp [hasContentPixel, Pixel.isContent, whiteCanvas]) (by decide) (by decide)⟩

/-! ## The export paths -/

/-- When the PDF library does not throw, `createPDFFromCanvas` saves a file for
every raster with a positive width, whatever its pixels. -/
theorem createPDFFromCanvas_saves (s : Session) (b : Collaborators) (c : Canvas)
    (hb : b.jsPDFThrows = false) (hw : 0 < c.width) :
    createPDFFromCanvas s b c
      = some (Outcome.done [Output.pdfSave (signedFileName s "_signed.pdf" "signed-document.pdf")
          (pdfPageOps c ((c.height * 210 + c.width * 297 - 1) / (c.width * 297)))]) := by
  have hw0 : c.width ≠ 0 := by omega
  simp [createPDFFromCanvas, hb, totalPages, hw0]

/-- C7: for an uploaded PDF whose rendered raster is entirely white (1600 by
1200 pixels, no content pixel), the PDF export saves `contract_signed.pdf` with
one page, while `downloadCanvas` on the same raster emits no file and shows the
"no content" alert: the PDF path does not run the scan. -/
theorem pdf_export_skips_content_scan :
    ¬ hasContentPixel (whiteCanvas 1600 1200)
    ∧ downloadDocument 1 (afterUpload "application/pdf" "contract.pdf")
          (rendering (whiteCanvas 1600 1200))
        = some (Outcome.done [Output.pdfSave "contract_signed.pdf"
            [PdfOp.addImage "JPEG" 0 0 210 (1200 * 210) 1600]])
    ∧ downloadCanvas (whiteCanvas 1600 1200) "signed-document.png"
        = Outcome.done [Output.alert noContentMessage] := by
  refine ⟨whiteCanvas_no_content 1600 1200, ?_, ?_⟩
  · decide
  · exact downloadCanvas_of_no_content _ _ (whiteCanvas_no_content 1600 1200)
      (by decide) (by decide)

/-! ## Source kind and export branch -/

/-- C8: a file named `notes.txt` whose type the browser leaves empty is shown
as a text source by `handleFileUpload`, and `downloadDocument` then takes the
image branch; the same for `NOTES.TXT` with type `application/octet-stream`,
and `report.docx` with an empty type is shown as Word and exported as image. -/
theorem text_upload_exported_as_image :
    sourceKind ⟨"", "notes.txt", "Hello"⟩ = SourceKind.text
    ∧ exportBranch (afterUpload "" "notes.txt") = some ExportBranch.image
    ∧ downloadDocument 1 (afterUpload "" "notes.txt") (rendering (dotCanvas 2 2))
        = some (Outcome.done [Output.downloadImage "signed-document.png"
            ((dotCanvas 2 2).toDataURL "image/png")])
    ∧ sourceKind ⟨"application/octet-stream", "NOTES.TXT", "Hello"⟩ = SourceKind.text
    ∧ exportBranch (afterUpload "application/octet-stream" "NOTES.TXT")
        = some ExportBranch.image
    ∧ sourceKind ⟨"", "report.docx", "Hello"⟩ = SourceKind.word
    ∧ exportBranch (afterUpload "" "report.docx") = some ExportBranch.image := by
  refine ⟨by decide, by decide, by decide, by decide, by decide, by decide, by decide⟩

theorem startsWith_image_ne (t : String) (h : startsWith t "image/" = true) :
    t ≠ "" ∧ t ≠ "application/pdf" := by
  constructor
  · rintro rfl
    exact absurd h (by decide)
  · rintro rfl
    exact absurd h (by decide)

/-- Where upload and export agree: an image source is exported by the image
branch, a PDF source by the PDF branch, and a text source whose type is
`text/plain` by the text branch. -/
theorem exportBranch_agrees (s : Session) (pdfjs : Bool) (f : File) :
    (sourceKind f = SourceKind.image →
      exportBranch (handleFileUpload s pdfjs (some f)) = some ExportBranch.image)
    ∧ (sourceKind f = SourceKind.pdf →
      exportBranch (handleFileUpload s pdfjs (some f)) = some ExportBranch.pdf)
    ∧ (sourceKind f = SourceKind.text → f.type = "text/plain" →
      exportBranch (handleFileUpload s pdfjs (some f)) = some ExportBranch.text) := by
  refine ⟨?_, ?_, ?_⟩
  · intro h
    have hi : startsWith f.type "image/" = true := by
      by_contra hc
      simp only [sourceKind, hc] at h
      revert h
      simp only [Bool.false_eq_true, if_false]
      split_ifs <;> simp
    obtain ⟨h1, h2⟩ := startsWith_image_ne f.type hi
    simp [handleFileUpload, h, displayImageDocument, exportBranch, truthy, hi, h1, h2]
  · intro h
    simp [handleFileUpload, h, displayPDFDocument, exportBranch, truthy]
  · intro h ht
    have hni : startsWith f.type "image/" = false := by
      rw [ht]; decide
    simp [handleFileUpload, h, displayWithSignHere, exportBranch, truthy, ht]
    decide

/-! ## The image extension -/

/-- The image export names the file `signed-document.<ext>` whatever the
original name is. -/
theorem image_export_name (fuel : Nat) (s : Session) (b : Collaborators) (c : Canvas)
    (hd : b.html2canvasDefined = true) (hr : b.html2canvasResult = some c)
    (hc : hasContentPixel c) :
    downloadAsImage (fuel + 1) s b
      = some (Outcome.done [Output.downloadImage ("signed-document." ++ getImageExtension s)
          (c.toDataURL "image/png")]) := by
  have hs : scanContent (imageData c) = true := (scanContent_imageData c).mpr hc
  have hdim : ¬ (c.width = 0 ∨ c.height = 0) := by
    obtain ⟨x, y, hx, hy, _⟩ := hc
    omega
  simp [downloadAsImage, hd, hr, downloadCanvas, hdim, hs]

theorem dotCanvas_has_content (w h : Nat) (hw : 0 < w) (hh : 0 < h) :
    hasContentPixel (dotCanvas w h) :=
  ⟨0, 0, hw, hh, by simp [Pixel.isContent, dotCanvas]⟩

/-- C9, as stated, fails: an image of type `image/bmp` is exported as
`signed-document.png`, an extension that is not the one of its type; an image
of type `image/png` named `scan.txt` is exported as the text file
`scan_signed.txt` when the renderer rejects; and, the claim being about every
type string, `image/x-jpeg-png` contains `png` and gets `jpg`. -/
theorem image_extension_counterexample :
    sourceKind ⟨"image/bmp", "scan.bmp", "Hello"⟩ = SourceKind.image
    ∧ getImageExtension (afterUpload "image/bmp" "scan.bmp") = "png"
    ∧ downloadDocument 1 (afterUpload "image/bmp" "scan.bmp") (rendering (dotCanvas 2 2))
        = some (Outcome.done [Output.downloadImage "signed-document.png"
            ((dotCanvas 2 2).toDataURL "image/png")])
    ∧ sourceKind ⟨"image/png", "scan.txt", "Hello"⟩ = SourceKind.image
    ∧ downloadDocument 2 (afterUpload "image/png" "scan.txt") renderingFails
        = some (Outcome.done [Output.consoleError "html2canvas failed:",
            Output.downloadBlob "scan_signed.txt" "text/plain" "Hello"])
    ∧ includes "image/x-jpeg-png" "png" = true
    ∧ getImageExtension (withFileType (some "image/x-jpeg-png")) = "jpg" := by
  refine ⟨by decide, by decide, by decide, by decide, by decide, by decide, by decide⟩

/-- The image export after the upload of an image source, the renderer
available and returning a raster with content: the file is
`signed-document.<ext>` with the extension `getImageExtension` gives for the
type of the upload. -/
theorem image_upload_export (s : Session) (pdfjs : Bool) (f : File) (b : Collaborators)
    (c : Canvas) (fuel : Nat) (hk : sourceKind f = SourceKind.image)
    (hav : b.html2canvasDefined = true ∨ b.html2canvasLoads = true)
    (hr : b.html2canvasResult = some c) (hc : hasContentPixel c) :
    (handleFileUpload s pdfjs (some f)).currentFileType = some f.type
    ∧ downloadDocument (fuel + 2) (handleFileUpload s pdfjs (some f)) b
        = some (Outcome.done [Output.downloadImage
            ("signed-document." ++ getImageExtension (handleFileUpload s pdfjs (some f)))
            (c.toDataURL "image/png")]) := by
  have hi : startsWith f.type "image/" = true := by
    by_contra hcon
    simp only [sourceKind, hcon] at hk
    revert hk
    simp only [Bool.false_eq_true, if_false]
    split_ifs <;> simp
  obtain ⟨h1, _⟩ := startsWith_image_ne f.type hi
  have hbranch := (exportBranch_agrees s pdfjs f).1 hk
  constructor
  · simp [handleFileUpload, hk, displayImageDocument, truthy, hi, h1]
  · simp only [downloadDocument, hbranch]
    by_cases hd : b.html2canvasDefined = true
    · exact image_export_name (fuel + 1) _ b c hd hr hc
    · have hl : b.html2canvasLoads = true := by
        rcases hav with h | h
        · exact absurd h hd
        · exact h
      have hstep : downloadAsImage (fuel + 2) (handleFileUpload s pdfjs (some f)) b
          = downloadAsImage (fuel + 1) (handleFileUpload s pdfjs (some f))
              { b with html2canvasDefined := true } := by
        simp [downloadAsImage, hd, hl]
      rw [hstep]
      exact image_export_name fuel _ { b with html2canvasDefined := true } c rfl hr hc

/-- C9, amended: `getImageExtension` returns one of `jpg`, `png`, `gif`,
`webp`; the tests run in order and the first that matches decides: `jpg` for a
type containing `jpeg` or `jpg`; `png` for one containing `png` and neither of
these; `gif` for one containing `gif` and none of the former; `webp` for one
containing `webp` and none of the former; `png` when the type is absent, empty
or contains none of them.  After the upload of an image source, when the
renderer is available and returns a raster with content, `downloadDocument`
emits the file `signed-document.<ext>` with that extension for the type of
the upload. -/
theorem getImageExtension_first_match (s : Session) :
    getImageExtension s ∈ ["jpg", "png", "gif", "webp"]
    ∧ (∀ t, s.currentFileType = some t →
        ((includes t "jpeg" = true ∨ includes t "jpg" = true) → getImageExtension s = "jpg")
        ∧ (includes t "jpeg" = false → includes t "jpg" = false → includes t "png" = true →
            getImageExtension s = "png")
        ∧ (includes t "jpeg" = false → includes t "jpg" = false → includes t "png" = false →
            includes t "gif" = true → getImageExtension s = "gif")
        ∧ (includes t "jpeg" = false → includes t "jpg" = false → includes t "png" = false →
            includes t "gif" = false → includes t "webp" = true → getImageExtension s = "webp")
        ∧ (includes t "jpeg" = false → includes t "jpg" = false → includes t "png" = false →
            includes t "gif" = false → includes t "webp" = false → getImageExtension s = "png"))
    ∧ (s.currentFileType = none ∨ s.currentFileType = some "" → getImageExtension s = "png")
    ∧ (∀ (pdfjs : Bool) (f : File) (b : Collaborators) (c : Canvas) (fuel : Nat),
        sourceKind f = SourceKind.image →
        (b.html2canvasDefined = true ∨ b.html2canvasLoads = true) →
        b.html2canvasResult = some c → hasContentPixel c →
        (handleFileUpload s pdfjs (some f)).currentFileType = some f.type
        ∧ downloadDocument (fuel + 2) (handleFileUpload s pdfjs (some f)) b
            = some (Outcome.done [Output.downloadImage
                ("signed-document." ++ getImageExtension (handleFileUpload s pdfjs (some f)))
                (c.toDataURL "image/png")])) := by
  refine ⟨?_, ?_, ?_, ?_⟩
  · unfold getImageExtension
    split
    · simp
    · split_ifs <;> simp
  · intro t ht
    have hempty : t = "" → includes t "jpeg" = false ∧ includes t "jpg" = false
        ∧ includes t "png" = false ∧ includes t "gif" = false ∧ includes t "webp" = false := by
      rintro rfl
      decide
    by_cases h0 : t = ""
    · obtain ⟨e1, e2, e3, e4, e5⟩ := hempty h0
      simp [getImageExtension, ht, h0, e1, e2, e3, e4, e5]
      subst h0
      decide
    · refine ⟨?_, ?_, ?_, ?_, ?_⟩
      · rintro (h | h) <;> simp [getImageExtension, ht, h0, h]
      · intro h1 h2 h3
        simp [getImageExtension, ht, h0, h1, h2, h3]
      · intro h1 h2 h3 h4
        simp [getImageExtension, ht, h0, h1, h2, h3, h4]
      · intro h1 h2 h3 h4 h5
        simp [getImageExtension, ht, h0, h1, h2, h3, h4, h5]
      · intro h1 h2 h3 h4 h5
        simp [getImageExtension, ht, h0, h1, h2, h3, h4, h5]
  · rintro (h | h) <;> simp [getImageExtension, h]
  · intro pdfjs f b c fuel hk hav hr hc
    exact image_upload_export s pdfjs f b c fuel hk hav hr hc

/-- C9, amended, on the types `image/jpeg`, `image/png`, `image/gif`,
`image/webp`, `image/bmp` and on no type, and on the export of an uploaded
`photo.jpg`. -/
theorem getImageExtension_first_match_witness :
    getImageExtension (withFileType (some "image/jpeg")) = "jpg"
    ∧ getImageExtension (withFileType (some "image/png")) = "png"
    ∧ getImageExtension (withFileType (some "image/gif")) = "gif"
    ∧ getImageExtension (withFileType (some "image/webp")) = "webp"
    ∧ getImageExtension (withFileType (some "image/bmp")) = "png"
    ∧ getImageExtension (withFileType none) = "png"
    ∧ downloadDocument 2 (afterUpload "image/jpeg" "photo.jpg") (rendering (dotCanvas 2 2))
        = some (Outcome.done [Output.downloadImage "signed-document.jpg"
            ((dotCanvas 2 2).toDataURL "image/png")]) :=
  ⟨((getImageExtension_first_match (withFileType (some "image/jpeg"))).2.1
      "image/jpeg" rfl).1 (Or.inl (by decide)),
   ((getImageExtension_first_match (withFileType (some "image/png"))).2.1
      "image/png" rfl).2.1 (by decide) (by decide) (by decide),
   ((getImageExtension_first_match (withFileType (some "image/gif"))).2.1
      "image/gif" rfl).2.2.1 (by decide) (by decide) (by decide) (by decide),
   ((getImageExtension_first_match (withFileType (some "image/webp"))).2.1
      "image/webp" rfl).2.2.2.1 (by decide) (by decide) (by decide) (by decide) (by decide),
   ((getImageExtension_first_match (withFileType (some "image/bmp"))).2.1
      "image/bmp" rfl).2.2.2.2 (by decide) (by decide) (by decide) (by decide) (by decide),
   (getImageExtension_first_match (withFileType none)).2.2.1 (Or.inl rfl),
   ((getImageExtension_first_match (initialSession sampleRect 1 1)).2.2.2 true
      ⟨"image/jpeg", "photo.jpg", "Hello"⟩ (rendering (dotCanvas 2 2)) (dotCanvas 2 2) 0
      (by decide) (Or.inl rfl) rfl (dotCanvas_has_content 2 2 (by decide) (by decide))).2⟩

/-! ## File names -/

/-- Removing the extension: a name that ends in a dot followed by one or more
characters, none of them a dot or a slash, loses that dot and what follows. -/
theorem stripExtension_final_extension (base ext : List Char) (hne : ext ≠ [])
    (hext : ∀ c ∈ ext, c ≠ '/' ∧ c ≠ '.') :
    stripExtension (String.mk (base ++ '.' :: ext)) = String.mk base := by
  have hall : ext.all (fun d => d != '/' && d != '.') = true := by
    rw [List.all_eq_true]
    intro c hc
    simp [hext c hc]
  have hemp : ext.isEmpty = false := by
    cases ext with
    | nil => exact absurd rfl hne
    | cons _ _ => rfl
  have key : stripExtensionChars (base ++ '.' :: ext) = base := by
    induction base with
    | nil => simp [stripExtensionChars, extensionMatchesAt, hall, hemp]
    | cons c cs ih =>
      have hno : extensionMatchesAt (c :: (cs ++ '.' :: ext)) = false := by
        simp only [extensionMatchesAt, Bool.and_eq_false_imp, Bool.and_eq_true]
        intro _
        rw [Bool.eq_false_iff]
        intro h
        rw [List.all_eq_true] at h
        have := h '.' (by simp)
        simp at this
      show (if extensionMatchesAt (c :: (cs ++ '.' :: ext)) = true then []
        else c :: stripExtensionChars (cs ++ '.' :: ext)) = c :: cs
      rw [hno, ih]
      rfl
  show String.mk (stripExtensionChars (base ++ '.' :: ext)) = String.mk base
  rw [key]

/-- The text, Word and PDF exports name the file after the original name when
there is one. -/
theorem signed_names_of_original (s : Session) (b : Collaborators) (n : String)
    (h : s.originalFileName = some n) (hn : n ≠ "") :
    downloadAsText s b = Outcome.done [Output.downloadBlob (stripExtension n ++ "_signed.txt")
        "text/plain" (if b.innerText ≠ "" then b.innerText else b.textContent)]
    ∧ downloadAsWord s b = Outcome.done [Output.downloadBlob (stripExtension n ++ "_signed.html")
        "text/html" (wordDocument b.innerHTML)]
    ∧ signedFileName s "_signed.pdf" "signed-document.pdf" = stripExtension n ++ "_signed.pdf" := by
  simp [downloadAsText, downloadAsWord, signedFileName, truthy, h, hn]

/-- C10: after the upload of the image `photo.png`, the export downloads
`signed-document.png`, not `photo_signed.png`; the text export of `notes.txt`
is named `notes_signed.txt` and the PDF export of `contract.pdf` is named
`contract_signed.pdf`. -/
theorem image_export_ignores_original_name :
    (afterUpload "image/png" "photo.png").originalFileName = some "photo.png"
    ∧ downloadDocument 1 (afterUpload "image/png" "photo.png") (rendering (dotCanvas 2 2))
        = some (Outcome.done [Output.downloadImage "signed-document.png"
            ((dotCanvas 2 2).toDataURL "image/png")])
    ∧ downloadDocument 1 (afterUpload "text/plain" "notes.txt") (rendering (dotCanvas 2 2))
        = some (Outcome.done [Output.downloadBlob "notes_signed.txt" "text/plain" "Hello"])
    ∧ downloadDocument 1 (afterUpload "application/pdf" "contract.pdf")
          (rendering (dotCanvas 2 2))
        = some (Outcome.done [Output.pdfSave "contract_signed.pdf"
            [PdfOp.addImage "JPEG" 0 0 210 (2 * 210) 2]]) := by
  refine ⟨by decide, by decide, by decide, by decide⟩

/-! ## Touch and pointer position -/

/-- C11: without a contact point `handleTouch` dispatches nothing and returns
the session as it was; with one or more it dispatches exactly one mouse event
on the canvas, `mousedown` for `touchstart` and `mousemove` for `touchmove`,
at the client position of the first contact, so that the session is the one
`startDrawing` or `draw` gives for a mouse event there and `getPosition` of
the event is the first contact's position less the rectangle's corner. -/
theorem handleTouch_first_contact (R : Rasterizer) (s : Session) (e : TouchEvent) :
    (e.touches = [] → touchDispatches e = [] ∧ handleTouch R s e = s)
    ∧ (∀ touch rest, e.touches = touch :: rest →
        touchDispatches e = [(syntheticType e.type, ⟨touch.clientX, touch.clientY⟩)]
        ∧ (e.type = "touchstart" → syntheticType e.type = "mousedown"
            ∧ handleTouch R s e = startDrawing s ⟨touch.clientX, touch.clientY⟩)
        ∧ (e.type = "touchmove" → syntheticType e.type = "mousemove"
            ∧ handleTouch R s e = draw R s ⟨touch.clientX, touch.clientY⟩)
        ∧ getPosition s ⟨touch.clientX, touch.clientY⟩
            = (touch.clientX - s.rect.left, touch.clientY - s.rect.top)) := by
  constructor
  · intro h
    simp [touchDispatches, handleTouch, h]
  · intro touch rest h
    refine ⟨by simp [touchDispatches, h], ?_, ?_, rfl⟩
    · intro ht
      simp [touchDispatches, handleTouch, h, ht, syntheticType, canvasDispatchEvent]
    · intro ht
      simp [touchDispatches, handleTouch, h, ht, syntheticType, canvasDispatchEvent]

/-- C11, on a touch start with two contacts, a touch move, and a touch event
without contacts. -/
theorem handleTouch_first_contact_witness :
    touchDispatches ⟨"touchstart", [⟨12, 34⟩, ⟨200, 90⟩]⟩ = [("mousedown", ⟨12, 34⟩)]
    ∧ handleTouch noInk (initialSession sampleRect 1 1) ⟨"touchstart", [⟨12, 34⟩, ⟨200, 90⟩]⟩
        = startDrawing (initialSession sampleRect 1 1) ⟨12, 34⟩
    ∧ handleTouch noInk (initialSession sampleRect 1 1) ⟨"touchmove", [⟨15, 30⟩]⟩
        = draw noInk (initialSession sampleRect 1 1) ⟨15, 30⟩
    ∧ handleTouch noInk (initialSession sampleRect 1 1) ⟨"touchmove", []⟩
        = initialSession sampleRect 1 1 :=
  ⟨((handleTouch_first_contact noInk (initialSession sampleRect 1 1)
      ⟨"touchstart", [⟨12, 34⟩, ⟨200, 90⟩]⟩).2 ⟨12, 34⟩ [⟨200, 90⟩] rfl).1,
   (((handleTouch_first_contact noInk (initialSession sampleRect 1 1)
      ⟨"touchstart", [⟨12, 34⟩, ⟨200, 90⟩]⟩).2 ⟨12, 34⟩ [⟨200, 90⟩] rfl).2.1 rfl).2,
   (((handleTouch_first_contact noInk (initialSession sampleRect 1 1)
      ⟨"touchmove", [⟨15, 30⟩]⟩).2 ⟨15, 30⟩ [] rfl).2.2.1 rfl).2,
   ((handleTouch_first_contact noInk (initialSession sampleRect 1 1)
      ⟨"touchmove", []⟩).1 rfl).2⟩

/-- On whole pixels `getPosition` is the client position less the left and top
of the canvas rectangle, does not read the device pixel ratio, and is the same
when client position and rectangle are shifted by one offset. -/
theorem getPosition_local (s : Session) (e : MouseEvent) :
    getPosition s e = (e.clientX - s.rect.left, e.clientY - s.rect.top)
    ∧ (∀ n d : Nat, getPosition { s with dprNum := n, dprDen := d } e = getPosition s e)
    ∧ (∀ dx dy : Int,
        getPosition
          { s with rect := { s.rect with left := s.rect.left + dx, top := s.rect.top + dy } }
          ⟨e.clientX + dx, e.clientY + dy⟩
        = getPosition s e) := by
  refine ⟨rfl, fun _ _ => rfl, ?_⟩
  intro dx dy
  simp only [getPosition]
  ext <;> simp

/-! ## Placing with a signature -/

/-- C12: with a saved signature `placeSignatureHere` shows no alert and leaves
the sign-here element with exactly one child, an image of the saved signature
at (0, 0) sized 180px by 50px, the other sign-here elements and the appended
images as they were; `addSignatureToDocument` shows no alert and appends one
image of the saved signature at (50, 50) sized 150px by 60px, the markup, the
sign-here elements and the images appended before as they were. -/
theorem place_with_signature (s : Session) (k : Nat) (sig : DataURL)
    (hs : s.savedSignature = some sig) (hk : k < s.view.signHere.length) :
    (placeSignatureHere s k).2 = []
    ∧ (placeSignatureHere s k).1.view.signHere[k]?
        = some ⟨[Node.img
            { src := sig, width := "180px", height := "50px", position := "absolute"
              top := 0, left := 0, className := "signature-placed", zIndex := ""
              onmousedown := false, pos1 := 0, pos2 := 0, pos3 := 0, pos4 := 0 }], "none"⟩
    ∧ (∀ j, j ≠ k → (placeSignatureHere s k).1.view.signHere[j]? = s.view.signHere[j]?)
    ∧ (placeSignatureHere s k).1.view.appended = s.view.appended
    ∧ (addSignatureToDocument s).2 = []
    ∧ (addSignatureToDocument s).1.view.appended
        = s.view.appended ++
          [{ src := sig, width := "150px", height := "60px", position := "absolute"
             top := 50, left := 50, className := "signature-placed", zIndex := "10"
             onmousedown := true, pos1 := 0, pos2 := 0, pos3 := 0, pos4 := 0 }]
    ∧ (addSignatureToDocument s).1.view.signHere = s.view.signHere
    ∧ (addSignatureToDocument s).1.view.markup = s.view.markup := by
  refine ⟨?_, ?_, ?_, ?_, ?_, ?_, ?_, ?_⟩
  · simp [placeSignatureHere, hs]
  · simp [placeSignatureHere, hs, hk]
  · intro j hj
    simp only [placeSignatureHere, hs]
    exact List.getElem?_set_ne (Ne.symm hj)
  · simp [placeSignatureHere, hs]
  · simp [addSignatureToDocument, hs]
  · simp [addSignatureToDocument, hs, makeDraggable]
  · simp [addSignatureToDocument, hs]
  · simp [addSignatureToDocument, hs]

/-- C12, on the sample document with a saved signature. -/
theorem place_with_signature_witness :
    (placedImage (placeSignatureHere sampleWithSignature 0).1 0).map
        (fun i => (i.src, i.left, i.top, i.width, i.height))
      = some ((Canvas.blank 1 1).toDataURL "image/png", 0, 0, "180px", "50px")
    ∧ (addSignatureToDocument sampleWithSignature).1.view.appended = [sampleOverlay] := by
  have h := place_with_signature sampleWithSignature 0
    ((Canvas.blank 1 1).toDataURL "image/png") rfl (by decide)
  refine ⟨?_, ?_⟩
  · simp only [placedImage, h.2.1]
    rfl
  · rw [h.2.2.2.2.2.1]
    rfl

/-! ## Clearing keeps the saved signature -/

/-- C17: `clearSignature` changes only the pixels of the canvas and the status
markup, so the saved signature, the drawing flag and the file type and name are
as before; a signature saved before the clear is placed after it, without an
alert, by both place operations. -/
theorem clearSignature_frame (s : Session) :
    clearSignature s
      = { s with
          canvas := { s.canvas with
            pixels := clearRect s.ctx 0 0 s.canvas.width s.canvas.height s.canvas.pixels }
          signatureStatus := "" }
    ∧ (clearSignature s).savedSignature = s.savedSignature
    ∧ (clearSignature s).isDrawing = s.isDrawing
    ∧ (clearSignature s).currentFileType = s.currentFileType
    ∧ (clearSignature s).originalFileName = s.originalFileName
    ∧ (clearSignature s).view = s.view
    ∧ (∀ sig k, s.savedSignature = some sig → k < s.view.signHere.length →
        (placeSignatureHere (clearSignature s) k).2 = []
        ∧ (placedImage (placeSignatureHere (clearSignature s) k).1 k).map Img.src = some sig
        ∧ (addSignatureToDocument (clearSignature s)).2 = []
        ∧ ((addSignatureToDocument (clearSignature s)).1.view.appended.getLast?).map Img.src
            = some sig) := by
  refine ⟨rfl, rfl, rfl, rfl, rfl, rfl, ?_⟩
  intro sig k hs hk
  have hs2 : (clearSignature s).savedSignature = some sig := hs
  have hk2 : k < (clearSignature s).view.signHere.length := hk
  refine ⟨?_, ?_, ?_, ?_⟩
  · simp [placeSignatureHere, hs2]
  · simp [placedImage, placeSignatureHere, hs2, hk2]
  · simp [addSignatureToDocument, hs2]
  · simp [addSignatureToDocument, hs2, makeDraggable]

/-- C17, on the sample document with a saved signature. -/
theorem clearSignature_frame_witness :
    (clearSignature sampleWithSignature).savedSignature
        = some ((Canvas.blank 1 1).toDataURL "image/png")
    ∧ (placedImage (placeSignatureHere (clearSignature sampleWithSignature) 0).1 0).map Img.src
        = some ((Canvas.blank 1 1).toDataURL "image/png") :=
  ⟨(clearSignature_frame sampleWithSignature).2.1,
   ((clearSignature_frame sampleWithSignature).2.2.2.2.2.2
      ((Canvas.blank 1 1).toDataURL "image/png") 0 rfl (by decide)).2.1⟩

/-! ## Independent overlays -/

theorem isDraggable_iff (s : Session) (k : Nat) :
    isDraggable s k ↔ (s.view.appended[k]?).map Img.onmousedown = some true := by
  unfold isDraggable
  cases h : s.view.appended[k]? with
  | none => simp
  | some i => simp

theorem updateAppended_handlers (s : Session) (k : Nat) (f : Img → Img)
    (hf : ∀ i, (f i).onmousedown = i.onmousedown) (j : Nat) :
    ((updateAppended s k f).view.appended[j]?).map Img.onmousedown
      = (s.view.appended[j]?).map Img.onmousedown := by
  unfold updateAppended
  cases h : s.view.appended[k]? with
  | none => rfl
  | some i =>
    simp only
    by_cases hjk : k = j
    · subst hjk
      have hlt : k < s.view.appended.length := (List.getElem?_eq_some_iff.mp h).1
      simp [hlt, h, hf]
    · rw [List.getElem?_set_ne hjk]

theorem updateAppended_other (s : Session) (k : Nat) (f : Img → Img) (j : Nat) (hj : j ≠ k) :
    (updateAppended s k f).view.appended[j]? = s.view.appended[j]? := by
  unfold updateAppended
  cases h : s.view.appended[k]? with
  | none => rfl
  | some i => exact List.getElem?_set_ne (Ne.symm hj)

theorem updateAppended_document (s : Session) (k : Nat) (f : Img → Img) :
    (updateAppended s k f).documentOnmousemove = s.documentOnmousemove
    ∧ (updateAppended s k f).documentOnmouseup = s.documentOnmouseup := by
  unfold updateAppended
  cases h : s.view.appended[k]? <;> exact ⟨rfl, rfl⟩


theorem moves_fold_frame (moves : List MouseEvent) (s : Session) (k : Nat)
    (hm : s.documentOnmousemove = some k) :
    ((moves.map DocEvent.mousemove).foldl docDispatch s).documentOnmousemove = some k
    ∧ ((moves.map DocEvent.mousemove).foldl docDispatch s).documentOnmouseup
        = s.documentOnmouseup
    ∧ (∀ j : Nat, j ≠ k →
        ((moves.map DocEvent.mousemove).foldl docDispatch s).view.appended[j]?
          = s.view.appended[j]?)
    ∧ (∀ j : Nat, (((moves.map DocEvent.mousemove).foldl docDispatch s).view.appended[j]?).map
          Img.onmousedown = (s.view.appended[j]?).map Img.onmousedown) := by
  induction moves generalizing s with
  | nil => exact ⟨hm, rfl, fun _ _ => rfl, fun _ => rfl⟩
  | cons e es ih =>
    have hstep : docDispatch s (DocEvent.mousemove e)
        = updateAppended s k (fun i => i.elementDrag e) := by
      simp [docDispatch, hm, elementDrag]
    have hdoc := updateAppended_document s k (fun i => i.elementDrag e)
    have h := ih (docDispatch s (DocEvent.mousemove e)) (by rw [hstep, hdoc.1, hm])
    simp only [List.map_cons, List.foldl_cons]
    refine ⟨h.1, ?_, ?_, ?_⟩
    · rw [h.2.1, hstep, hdoc.2]
    · intro j hj
      rw [h.2.2.1 j hj, hstep, updateAppended_other s k _ j hj]
    · intro j
      rw [h.2.2.2 j, hstep]
      exact updateAppended_handlers s k (fun i => i.elementDrag e) (fun _ => rfl) j

theorem moves_fold_idle (moves : List MouseEvent) (s : Session)
    (hm : s.documentOnmousemove = none) :
    (moves.map DocEvent.mousemove).foldl docDispatch s = s := by
  induction moves with
  | nil => rfl
  | cons e es ih =>
    simp only [List.map_cons, List.foldl_cons]
    have : docDispatch s (DocEvent.mousemove e) = s := by simp [docDispatch, hm]
    rw [this]
    exact ih

theorem completeDrag_frame (s : Session) (k : Nat) (press : MouseEvent)
    (moves : List MouseEvent) (hd : isDraggable s k) :
    (completeDrag s k press moves).documentOnmousemove = none
    ∧ (completeDrag s k press moves).documentOnmouseup = none
    ∧ (∀ j : Nat, j ≠ k → (completeDrag s k press moves).view.appended[j]? = s.view.appended[j]?)
    ∧ (∀ j : Nat, ((completeDrag s k press moves).view.appended[j]?).map Img.onmousedown
        = (s.view.appended[j]?).map Img.onmousedown) := by
  obtain ⟨i, hk, hon⟩ := hd
  have hpress : docDispatch s (DocEvent.mousedownOn k press)
      = { updateAppended s k (fun i => i.dragMouseDown press) with
          documentOnmouseup := some k, documentOnmousemove := some k } := by
    simp [docDispatch, hk, hon, dragMouseDown]
  have hfold := moves_fold_frame moves (docDispatch s (DocEvent.mousedownOn k press)) k
    (by rw [hpress])
  have hup : (dragSession s k press moves).documentOnmouseup = some k := by
    unfold dragSession
    rw [hfold.2.1, hpress]
  have hclose : completeDrag s k press moves = closeDragElement (dragSession s k press moves) := by
    simp [completeDrag, docDispatch, hup]
  rw [hclose]
  refine ⟨rfl, rfl, ?_, ?_⟩
  · intro j hj
    show (dragSession s k press moves).view.appended[j]? = _
    unfold dragSession
    rw [hfold.2.2.1 j hj, hpress]
    exact updateAppended_other s k (fun i => i.dragMouseDown press) j hj
  · intro j
    show ((dragSession s k press moves).view.appended[j]?).map Img.onmousedown = _
    unfold dragSession
    rw [hfold.2.2.2 j, hpress]
    exact updateAppended_handlers s k (fun i => i.dragMouseDown press) (fun _ => rfl) j

theorem runDrags_frame (drags : List (Nat × MouseEvent × List MouseEvent)) (s : Session)
    (hd : ∀ d ∈ drags, isDraggable s d.1) :
    (∀ j : Nat, (∀ d ∈ drags, d.1 ≠ j) → (runDrags s drags).view.appended[j]? = s.view.appended[j]?)
    ∧ (∀ j : Nat, ((runDrags s drags).view.appended[j]?).map Img.onmousedown
        = (s.view.appended[j]?).map Img.onmousedown)
    ∧ (drags ≠ [] → (runDrags s drags).documentOnmousemove = none) := by
  induction drags generalizing s with
  | nil => exact ⟨fun _ _ => rfl, fun _ => rfl, fun h => absurd rfl h⟩
  | cons d ds ih =>
    have hdd : isDraggable s d.1 := hd d (List.mem_cons_self _ _)
    have hf := completeDrag_frame s d.1 d.2.1 d.2.2 hdd
    have hds : ∀ x ∈ ds, isDraggable (completeDrag s d.1 d.2.1 d.2.2) x.1 := by
      intro x hx
      rw [isDraggable_iff, hf.2.2.2 x.1, ← isDraggable_iff]
      exact hd x (List.mem_cons_of_mem _ hx)
    have h := ih (completeDrag s d.1 d.2.1 d.2.2) hds
    have hrun : runDrags s (d :: ds) = runDrags (completeDrag s d.1 d.2.1 d.2.2) ds := rfl
    rw [hrun]
    refine ⟨?_, ?_, ?_⟩
    · intro j hj
      rw [h.1 j (fun x hx => hj x (List.mem_cons_of_mem _ hx))]
      exact hf.2.2.1 j (Ne.symm (hj d (List.mem_cons_self _ _)))
    · intro j
      rw [h.2.1 j, hf.2.2.2 j]
    · intro _
      by_cases hnil : ds = []
      · subst hnil
        exact hf.1
      · exact h.2.2 hnil

/-- C14: for complete drag sessions (press, moves, release) on images made
draggable, run one after the other in any order: an image that none of the
sessions pressed keeps its position; after any such sessions a further session
on one image leaves the position of every other image unchanged; and once a
session has ended with the release, pointer moves change nothing. -/
theorem drags_move_only_their_overlay (s : Session)
    (drags : List (Nat × MouseEvent × List MouseEvent))
    (hd : ∀ d ∈ drags, isDraggable s d.1) :
    (∀ j : Nat, (∀ d ∈ drags, d.1 ≠ j) → positionOf (runDrags s drags) j = positionOf s j)
    ∧ (∀ (k : Nat) (press : MouseEvent) (moves : List MouseEvent) (j : Nat),
        isDraggable s k → j ≠ k →
        positionOf (completeDrag (runDrags s drags) k press moves) j
          = positionOf (runDrags s drags) j)
    ∧ (drags ≠ [] → ∀ later : List MouseEvent,
        (later.map DocEvent.mousemove).foldl docDispatch (runDrags s drags)
          = runDrags s drags) := by
  have hf := runDrags_frame drags s hd
  refine ⟨?_, ?_, ?_⟩
  · intro j hj
    simp only [positionOf, hf.1 j hj]
  · intro k press moves j hk hj
    have hk2 : isDraggable (runDrags s drags) k := by
      rw [isDraggable_iff, hf.2.1 k, ← isDraggable_iff]
      exact hk
    simp only [positionOf, (completeDrag_frame (runDrags s drags) k press moves hk2).2.2.1 j hj]
  · intro hne later
    exact moves_fold_idle later _ (hf.2.2 hne)

/-- C14, on the sample document with two signatures added: a drag of the
first from (60, 70) to (100, 40) and then of the second leave the other one
where it was, and moves after the release change nothing. -/
theorem drags_move_only_their_overlay_witness :
    positionOf (runDrags twoOverlays [(0, ⟨60, 70⟩, [⟨80, 60⟩, ⟨100, 40⟩])]) 1 = some (50, 50)
    ∧ positionOf (runDrags twoOverlays [(0, ⟨60, 70⟩, [⟨80, 60⟩, ⟨100, 40⟩])]) 0 = some (90, 20)
    ∧ positionOf (completeDrag
          (runDrags twoOverlays [(0, ⟨60, 70⟩, [⟨80, 60⟩, ⟨100, 40⟩])]) 1 ⟨55, 55⟩ [⟨10, 15⟩]) 0
        = some (90, 20)
    ∧ ([(⟨300, 300⟩ : MouseEvent), ⟨0, 0⟩].map DocEvent.mousemove).foldl docDispatch
          (runDrags twoOverlays [(0, ⟨60, 70⟩, [⟨80, 60⟩, ⟨100, 40⟩])])
        = runDrags twoOverlays [(0, ⟨60, 70⟩, [⟨80, 60⟩, ⟨100, 40⟩])] := by
  have h := drags_move_only_their_overlay twoOverlays
    [(0, ⟨60, 70⟩, [⟨80, 60⟩, ⟨100, 40⟩])]
    (by intro d hd; rw [List.mem_singleton.mp hd]; exact ⟨sampleOverlay, rfl, rfl⟩)
  refine ⟨?_, by decide, ?_, ?_⟩
  · rw [h.1 1 (by intro d hd; rw [List.mem_singleton.mp hd]; decide)]
    decide
  · rw [h.2.1 1 ⟨55, 55⟩ [⟨10, 15⟩] 0 ⟨sampleOverlay, rfl, rfl⟩ (by decide)]
    decide
  · exact h.2.2 (by simp) _

/-! ## Which placed images can be dragged -/

/-- C13, as stated, fails: the image `placeSignatureHere` puts into the
sign-here element of the sample document has no `onmousedown` handler, the
document has no move handler after the placement, and pointer moves leave the
image at (0, 0). -/
theorem placed_image_not_draggable :
    (placedImage (placeSignatureHere sampleWithSignature 0).1 0).map Img.onmousedown
        = some false
    ∧ (placeSignatureHere sampleWithSignature 0).1.documentOnmousemove = none
    ∧ (placedImage
          (([(⟨5, 5⟩ : MouseEvent), ⟨40, 40⟩].map DocEvent.mousemove).foldl docDispatch
            (placeSignatureHere sampleWithSignature 0).1) 0).map (fun i => (i.left, i.top))
        = some (0, 0) := by
  refine ⟨by decide, by decide, by decide⟩

/-- C13, amended: the image `addSignatureToDocument` appends is draggable: a
press on it begins a drag session and the moves shift it from (50, 50) by the
pointer displacement; the image `placeSignatureHere` puts into a sign-here
element gets no press handler, and the placement installs no document handler
and leaves the appended images as they were. -/
theorem added_image_draggable_placed_image_fixed (s : Session) (sig : DataURL)
    (hs : s.savedSignature = some sig) :
    isDraggable (addSignatureToDocument s).1 s.view.appended.length
    ∧ (∀ (press : MouseEvent) (moves : List MouseEvent),
        positionOf (dragSession (addSignatureToDocument s).1 s.view.appended.length press moves)
            s.view.appended.length
          = some (50 + ((lastPointer press moves).clientX - press.clientX),
                  50 + ((lastPointer press moves).clientY - press.clientY)))
    ∧ (∀ k : Nat, k < s.view.signHere.length →
        (placedImage (placeSignatureHere s k).1 k).map Img.onmousedown = some false
        ∧ (placeSignatureHere s k).1.documentOnmousemove = s.documentOnmousemove
        ∧ (placeSignatureHere s k).1.documentOnmouseup = s.documentOnmouseup
        ∧ (placeSignatureHere s k).1.view.appended = s.view.appended) := by
  have hget : (addSignatureToDocument s).1.view.appended[s.view.appended.length]?
      = some ⟨sig, "150px", "60px", "absolute", 50, 50, "signature-placed", "10", true,
          0, 0, 0, 0⟩ := by
    simp [addSignatureToDocument, hs, makeDraggable]
  refine ⟨⟨_, hget, rfl⟩, ?_, ?_⟩
  · intro press moves
    have h := elementDrag_fold_position moves
      (Img.dragMouseDown
        ⟨sig, "150px", "60px", "absolute", 50, 50, "signature-placed", "10", true, 0, 0, 0, 0⟩
        press)
    simp only [positionOf, dragSession_appended _ _ _ press moves hget rfl, Option.map_some',
      h.1, h.2]
    rfl
  · intro k hk
    refine ⟨?_, ?_, ?_, ?_⟩
    · simp [placedImage, placeSignatureHere, hs, hk]
    · simp [placeSignatureHere, hs]
    · simp [placeSignatureHere, hs]
    · simp [placeSignatureHere, hs]

/-- C13, amended, on the sample document: the added signature pressed at
(60, 70) and moved to (100, 40) ends at (90, 20); the signature placed in the
sign-here element has no press handler. -/
theorem added_image_draggable_placed_image_fixed_witness :
    positionOf (dragSession (addSignatureToDocument sampleWithSignature).1 0 ⟨60, 70⟩
        [⟨100, 40⟩]) 0 = some (90, 20)
    ∧ (placedImage (placeSignatureHere sampleWithSignature 0).1 0).map Img.onmousedown
        = some false :=
  ⟨(added_image_draggable_placed_image_fixed sampleWithSignature
      ((Canvas.blank 1 1).toDataURL "image/png") rfl).2.1 ⟨60, 70⟩ [⟨100, 40⟩],
   ((added_image_draggable_placed_image_fixed sampleWithSignature
      ((Canvas.blank 1 1).toDataURL "image/png") rfl).2.2 0 (by decide)).1⟩

/-! ## The pages of the PDF -/

theorem ceilDiv_bounds (N D : Nat) (hD : 0 < D) (hN : 0 < N) :
    1 ≤ (N + D - 1) / D
    ∧ ((N + D - 1) / D - 1) * D < N
    ∧ N ≤ (N + D - 1) / D * D := by
  have h1 : 1 ≤ (N + D - 1) / D := by
    rw [Nat.le_div_iff_mul_le hD]
    omega
  have hmod := Nat.div_add_mod (N + D - 1) D
  have hlt := Nat.mod_lt (N + D - 1) hD
  have hcomm : D * ((N + D - 1) / D) = (N + D - 1) / D * D := Nat.mul_comm _ _
  have hsub : ((N + D - 1) / D - 1) * D = (N + D - 1) / D * D - D := by
    rw [Nat.sub_mul, Nat.one_mul]
  have hge : D ≤ (N + D - 1) / D * D := by
    calc D = 1 * D := (Nat.one_mul D).symm
      _ ≤ (N + D - 1) / D * D := Nat.mul_le_mul_right D h1
  refine ⟨h1, ?_, ?_⟩
  · rw [hsub]
    omega
  · omega

theorem pdfPageOps_shape (c : Canvas) (m : Nat) :
    pdfPageOps c (m + 1)
      = PdfOp.addImage "JPEG" 0 0 210 (c.height * 210) c.width
        :: (List.range m).flatMap (fun i =>
            [PdfOp.addPage,
             PdfOp.addImage "JPEG" 0 (-(((i + 1 : Nat) : Int) * 297)) 210 (c.height * 210)
               c.width]) := by
  unfold pdfPageOps
  rw [List.range_succ_eq_map]
  simp [List.flatMap_cons, List.flatMap_map]

theorem count_addPage_pages (f : Nat → PdfOp) (hf : ∀ i, f i ≠ PdfOp.addPage) (l : List Nat) :
    (l.flatMap (fun i => [PdfOp.addPage, f i])).count PdfOp.addPage = l.length := by
  induction l with
  | nil => rfl
  | cons a as ih =>
    simp only [List.flatMap_cons, List.cons_append, List.nil_append, List.count_cons,
      List.length_cons, ih]
    simp [hf a]


theorem pages_rational_bounds (w h : Nat) (hw : 0 < w) (hh : 0 < h) :
    ((((h * 210 + w * 297 - 1) / (w * 297) : Nat) : ℚ) - 1) * 297 < (h : ℚ) * 210 / w
    ∧ (h : ℚ) * 210 / w ≤ (((h * 210 + w * 297 - 1) / (w * 297) : Nat) : ℚ) * 297 := by
  obtain ⟨h1, h2, h3⟩ := ceilDiv_bounds (h * 210) (w * 297) (by omega) (by omega)
  generalize (h * 210 + w * 297 - 1) / (w * 297) = n at h1 h2 h3
  have hwq : (0 : ℚ) < w := by exact_mod_cast hw
  have e2 : (((n - 1 : Nat) : ℚ)) * ((w : ℚ) * 297) < (h : ℚ) * 210 := by exact_mod_cast h2
  have e3 : (h : ℚ) * 210 ≤ (n : ℚ) * ((w : ℚ) * 297) := by exact_mod_cast h3
  have hn1 : ((n - 1 : Nat) : ℚ) = (n : ℚ) - 1 := by
    rw [Nat.cast_sub h1]; simp
  rw [hn1] at e2
  constructor
  · rw [lt_div_iff₀ hwq]
    linarith
  · rw [div_le_iff₀ hwq]
    linarith

/-- C16: for a raster of positive width and height, when the PDF library does
not throw, `createPDFFromCanvas` saves a document of
`n = ceil((height * 210 / width) / 297)` pages, `n` at least 1: the first page
gets the image, each of the `n - 1` further pages is added by one `addPage` and
gets the image once, always at x = 0, width 210 and height
`height * 210 / width`, at y = -(i * 297) on page `i`; and
`(n - 1) * 297 < height * 210 / width ≤ n * 297`. -/
theorem createPDFFromCanvas_pages (s : Session) (b : Collaborators) (c : Canvas)
    (hb : b.jsPDFThrows = false) (hw : 0 < c.width) (hh : 0 < c.height) :
    ∃ n : Nat,
      totalPages c = some n
      ∧ 1 ≤ n
      ∧ (n : ℤ) = ⌈((c.height : ℚ) * 210 / c.width) / 297⌉
      ∧ createPDFFromCanvas s b c
          = some (Outcome.done
              [Output.pdfSave (signedFileName s "_signed.pdf" "signed-document.pdf")
                (pdfPageOps c n)])
      ∧ pdfPageOps c n
          = PdfOp.addImage "JPEG" 0 0 210 (c.height * 210) c.width
            :: (List.range (n - 1)).flatMap (fun i =>
                [PdfOp.addPage,
                 PdfOp.addImage "JPEG" 0 (-(((i + 1 : Nat) : Int) * 297)) 210 (c.height * 210)
                   c.width])
      ∧ (pdfPageOps c n).count PdfOp.addPage = n - 1
      ∧ (pdfPageOps c n).length = n + (n - 1)
      ∧ ((n : ℚ) - 1) * 297 < (c.height : ℚ) * 210 / c.width
      ∧ (c.height : ℚ) * 210 / c.width ≤ (n : ℚ) * 297 := by
  have hw0 : c.width ≠ 0 := by omega
  obtain ⟨h1, _, _⟩ := ceilDiv_bounds (c.height * 210) (c.width * 297) (by omega) (by omega)
  obtain ⟨q1, q2⟩ := pages_rational_bounds c.width c.height hw hh
  refine ⟨(c.height * 210 + c.width * 297 - 1) / (c.width * 297), ?_, h1, ?_, ?_, ?_, ?_, ?_,
    q1, q2⟩
  · simp [totalPages, hw0]
  · symm
    rw [Int.ceil_eq_iff]
    constructor
    · rw [lt_div_iff₀ (by norm_num : (0 : ℚ) < 297)]
      simpa using q1
    · rw [div_le_iff₀ (by norm_num : (0 : ℚ) < 297)]
      simpa using q2
  · simp [createPDFFromCanvas, hb, totalPages, hw0]
  · generalize (c.height * 210 + c.width * 297 - 1) / (c.width * 297) = n at h1
    obtain ⟨m, rfl⟩ : ∃ m, n = m + 1 := ⟨n - 1, by omega⟩
    simpa using pdfPageOps_shape c m
  · generalize (c.height * 210 + c.width * 297 - 1) / (c.width * 297) = n at h1
    obtain ⟨m, rfl⟩ : ∃ m, n = m + 1 := ⟨n - 1, by omega⟩
    rw [pdfPageOps_shape, List.count_cons, count_addPage_pages _ (by intro i; simp)]
    simp
  · generalize (c.height * 210 + c.width * 297 - 1) / (c.width * 297) = n at h1
    obtain ⟨m, rfl⟩ : ∃ m, n = m + 1 := ⟨n - 1, by omega⟩
    rw [pdfPageOps_shape]
    have hlen : ∀ l : List Nat, (l.flatMap (fun i =>
        [PdfOp.addPage,
         PdfOp.addImage "JPEG" 0 (-(((i + 1 : Nat) : Int) * 297)) 210 (c.height * 210)
           c.width])).length = 2 * l.length := by
      intro l
      induction l with
      | nil => rfl
      | cons a as ih => simp only [List.flatMap_cons, List.length_append, ih]; simp; omega
    simp only [List.length_cons, hlen, List.length_range]
    omega

/-- C16, on a raster of 1600 by 3000 pixels: the image is 393.75 mm high, the
document has two pages, and the second shows the image at y = -297. -/
theorem createPDFFromCanvas_pages_witness :
    createPDFFromCanvas (afterUpload "application/pdf" "contract.pdf")
        (rendering (dotCanvas 1600 3000)) (dotCanvas 1600 3000)
      = some (Outcome.done [Output.pdfSave "contract_signed.pdf"
          [PdfOp.addImage "JPEG" 0 0 210 630000 1600, PdfOp.addPage,
           PdfOp.addImage "JPEG" 0 (-297) 210 630000 1600]]) := by
  obtain ⟨n, hn, _, _, hc, _⟩ := createPDFFromCanvas_pages
    (afterUpload "application/pdf" "contract.pdf") (rendering (dotCanvas 1600 3000))
    (dotCanvas 1600 3000) rfl (by decide) (by decide)
  have h2 : totalPages (dotCanvas 1600 3000) = some 2 := by decide
  have hn2 : n = 2 := by
    rw [h2] at hn
    exact (Option.some.inj hn).symm
  subst hn2
  rw [hc]
  decide

/-! ## The pointer position in doubles -/

/-- C15, as stated, fails: with the canvas rectangle at left 8.1 and the
pointer at client x 310, `getPosition` gives x = 301.9; with both shifted by
0.225 the sums are 8.325 and 310.225 (each rounded to a double) and
`getPosition` gives 301.90000000000003. -/
theorem getPosition_changes_under_shift :
    getPositionDouble ⟨⟨dyadic 4559894622712627 49, 0⟩, 1, 1⟩ ⟨dyadic 310 0, 0⟩
        = (some (dyadic 2655540483404595 43), some 0)
    ∧ scrolled ⟨⟨dyadic 4559894622712627 49, 0⟩, 1, 1⟩ ⟨dyadic 310 0, 0⟩
          (dyadic 8106479329266893 55) 0
        = some (⟨⟨dyadic 2343279181116211 48, 0⟩, 1, 1⟩, ⟨dyadic 2728767957814477 43, 0⟩)
    ∧ getPositionDouble ⟨⟨dyadic 2343279181116211 48, 0⟩, 1, 1⟩ ⟨dyadic 2728767957814477 43, 0⟩
        = (some (dyadic 5311080966809191 44), some 0)
    ∧ (scrolled ⟨⟨dyadic 4559894622712627 49, 0⟩, 1, 1⟩ ⟨dyadic 310 0, 0⟩
          (dyadic 8106479329266893 55) 0).map (fun p => getPositionDouble p.1 p.2)
        ≠ some (getPositionDouble ⟨⟨dyadic 4559894622712627 49, 0⟩, 1, 1⟩ ⟨dyadic 310 0, 0⟩) := by
  refine ⟨by decide, by decide, by decide, by decide⟩

/-- C15, amended: `getPosition` returns the double differences
`clientX - rect.left` and `clientY - rect.top`; it does not read the device
pixel ratio; and when the page is scrolled by an offset whose sums with the
client coordinates and with the rectangle's left and top need no rounding, the
result is unchanged. -/
theorem getPositionDouble_local (v : Viewport) (e : DoubleEvent) :
    getPositionDouble v e
        = (doubleSub e.clientX v.rect.left, doubleSub e.clientY v.rect.top)
    ∧ (∀ n d : Nat, getPositionDouble { v with dprNum := n, dprDen := d } e
        = getPositionDouble v e)
    ∧ (∀ dx dy : Int,
        doubleAdd v.rect.left dx = some (v.rect.left + dx) →
        doubleAdd v.rect.top dy = some (v.rect.top + dy) →
        doubleAdd e.clientX dx = some (e.clientX + dx) →
        doubleAdd e.clientY dy = some (e.clientY + dy) →
        (scrolled v e dx dy).map (fun p => getPositionDouble p.1 p.2)
          = some (getPositionDouble v e)) := by
  refine ⟨rfl, fun _ _ => rfl, ?_⟩
  intro dx dy hl ht hx hy
  have e1 : e.clientX + dx - (v.rect.left + dx) = e.clientX - v.rect.left := by ring
  have e2 : e.clientY + dy - (v.rect.top + dy) = e.clientY - v.rect.top := by ring
  unfold scrolled
  rw [hl, ht, hx, hy]
  show some (doubleOf (e.clientX + dx - (v.rect.left + dx)),
      doubleOf (e.clientY + dy - (v.rect.top + dy)))
    = some (doubleOf (e.clientX - v.rect.left), doubleOf (e.clientY - v.rect.top))
  rw [e1, e2]

/-- C15, amended, on a rectangle at (10.5, 20.25) and a pointer at (12, 30),
scrolled by (0.25, -100.5): the position is (1.5, 9.75) before and after. -/
theorem getPositionDouble_local_witness :
    getPositionDouble ⟨⟨dyadic 21 1, dyadic 81 2⟩, 2, 1⟩ ⟨dyadic 12 0, dyadic 30 0⟩
        = (some (dyadic 3 1), some (dyadic 39 2))
    ∧ (scrolled ⟨⟨dyadic 21 1, dyadic 81 2⟩, 2, 1⟩ ⟨dyadic 12 0, dyadic 30 0⟩
          (dyadic 1 2) (dyadic (-201) 1)).map (fun p => getPositionDouble p.1 p.2)
        = some (some (dyadic 3 1), some (dyadic 39 2)) := by
  have h := getPositionDouble_local ⟨⟨dyadic 21 1, dyadic 81 2⟩, 2, 1⟩
    ⟨dyadic 12 0, dyadic 30 0⟩
  have h0 : getPositionDouble ⟨⟨dyadic 21 1, dyadic 81 2⟩, 2, 1⟩ ⟨dyadic 12 0, dyadic 30 0⟩
      = (some (dyadic 3 1), some (dyadic 39 2)) := by decide
  refine ⟨h0, ?_⟩
  rw [h.2.2 (dyadic 1 2) (dyadic (-201) 1) (by decide) (by decide) (by decide) (by decide), h0]

end ProDigitalSignature
